import Mathlib

/-!
# A verification of the `@vinsjo/color-parser` core

Shallow embedding of `src/index.ts` (color tuples, grammar matchers,
parsers, RGB↔HSL↔HEX conversions, combination, and the `Color` state
machine), with theorems settling the specification claims.

Modelling conventions:
* JS numbers are modelled as exact rationals (`ℚ`); IEEE-754 rounding is
  not modelled.  `undefined` and `NaN` inputs are both modelled as
  `none : Option ℚ` — every guard in the source (`isNum`) treats the two
  identically.
* JS strings are `List Char`.
* Regular-expression tests are translated into equivalent deterministic
  matchers (the grammars involved need no backtracking: every
  quantifier in them is followed by a character class disjoint from the
  quantified one, so maximal munch is equivalent).
-/

namespace ColorParser

/-! ## Numeric utilities (`//#region math functions`) -/

/-- JS `clamp(value, min, max) = Math.max(Math.min(value, max), min)`. -/
def clamp (value lo hi : ℚ) : ℚ := max (min value hi) lo

/-- JS `divSafe`: `!dividend || !divisor ? 0 : dividend / divisor`
(division or multiplication with a zero operand collapses to 0). -/
def divSafe (dividend divisor : ℚ) : ℚ :=
  if dividend = 0 ∨ divisor = 0 then 0 else dividend / divisor

/-- Truncation toward zero, the rounding used by the JS `%` operator. -/
def ratTrunc (q : ℚ) : ℤ := if 0 ≤ q then ⌊q⌋ else ⌈q⌉

/-- JS `value % m` on numbers: truncated remainder, sign follows the
dividend.  (`m = 0` gives `NaN` in JS; that case is unreachable in
every use below, and is mapped to `0`.) -/
def jsRem (v m : ℚ) : ℚ := if m = 0 then 0 else v - m * ratTrunc (v / m)

/-- JS `Math.round`: round half toward positive infinity. -/
def jsRound (q : ℚ) : ℤ := ⌊q + 1 / 2⌋

/-- `map(value, inputRangeStart, inputRangeEnd, outputRangeStart,
outputRangeEnd, constrainOutput)`: affine remap through `divSafe`,
optionally clamped into the output range. -/
def map (value i0 i1 o0 o1 : ℚ) (constrainOutput : Bool) : ℚ :=
  let result := divSafe (value - i0) (i1 - i0) * (o1 - o0) + o0
  if constrainOutput then clamp result (min o0 o1) (max o0 o1) else result

/-- `normalize(value, rangeStart, rangeEnd) = map(value, …, 0, 1, true)`. -/
def normalize (value r0 r1 : ℚ) : ℚ := map value r0 r1 0 1 true

/-- `euclideanModulo(value, max) = ((value % max) + max) % max`. -/
def euclideanModulo (value m : ℚ) : ℚ := jsRem (jsRem value m + m) m

/-- `segmentMap(value, segments, min, max)`: zero-based index of the
segment of `[min,max]` (split into `segments` equal buckets) that
`value` falls in, wrapped with `euclideanModulo`.  `Math.floor` returns
a JS number; the result stays a rational here. -/
def segmentMap (value segments lo hi : ℚ) : ℚ :=
  euclideanModulo ((⌊map value lo hi 0 segments true⌋ : ℤ) : ℚ) segments

/-- `isFloat` on an (always finite) rational: `x % 1 !== 0`. -/
def isFloat (q : ℚ) : Bool := q.den ≠ 1

/-- `roundFloat(value, precision)`: identity on non-floats, otherwise
round at `precision` decimal places. -/
def roundFloat (value : ℚ) (precision : ℕ) : ℚ :=
  if isFloat value then ((jsRound (value * 10 ^ precision) : ℤ) : ℚ) / 10 ^ precision
  else value

/-! ## Color tuples and array builders -/

/-- A 4-component color tuple (`ColorArray` / `CA` in the source). -/
structure CA where
  c1 : ℚ
  c2 : ℚ
  c3 : ℚ
  c4 : ℚ
deriving DecidableEq, Repr

/-- Spreading a tuple back into an argument list (`...rgba`). -/
def caToList (c : CA) : List (Option ℚ) := [some c.c1, some c.c2, some c.c3, some c.c4]

/-- The plain-rational components of a tuple (used where the source
passes the backing array itself around). -/
def caList (c : CA) : List ℚ := [c.c1, c.c2, c.c3, c.c4]

/-- `DEFAULT_COLORS.RGB = [0, 0, 0, ALPHA_RANGE]`. -/
def DEFAULT_RGB : CA := ⟨0, 0, 0, 1⟩

/-- `DEFAULT_COLORS.HSL = [0, HSL_RANGE[1], 0, ALPHA_RANGE]` — note the
saturation default is the space maximum `100`. -/
def DEFAULT_HSL : CA := ⟨0, 100, 0, 1⟩

/-- Element `i` of a JS argument list (`undefined` when out of range). -/
def getVal (values : List (Option ℚ)) (i : ℕ) : Option ℚ := (values.getD i none)

/-- `RGBArray(...values)`: defaults on an empty call, per-channel clamp
into `[0,255]`, alpha clamped into `[0,1]` with default `1`.  The final
`colorArray` NaN-guard of the source is vacuous on rationals. -/
def RGBArray (values : List (Option ℚ)) : CA :=
  if values.isEmpty then DEFAULT_RGB
  else
    { c1 := match getVal values 0 with
            | some v => clamp v 0 255
            | none => 0
      c2 := match getVal values 1 with
            | some v => clamp v 0 255
            | none => 0
      c3 := match getVal values 2 with
            | some v => clamp v 0 255
            | none => 0
      -- `isNum(a) && a !== ALPHA_RANGE ? clamp(a, 0, ALPHA_RANGE) : defaultRGB[3]`
      c4 := match getVal values 3 with
            | some v => if v = 1 then 1 else clamp v 0 1
            | none => 1 }

/-- `HSLArray(...values)`: defaults on an empty call, hue wrapped with
`euclideanModulo 360`, saturation/lightness clamped into `[0,100]`
(defaulting to `100` and `0` respectively), alpha clamped into `[0,1]`. -/
def HSLArray (values : List (Option ℚ)) : CA :=
  if values.isEmpty then DEFAULT_HSL
  else
    { c1 := match getVal values 0 with
            | some v => euclideanModulo v 360
            | none => 0
      c2 := match getVal values 1 with
            | some v => clamp v 0 100
            | none => 100
      c3 := match getVal values 2 with
            | some v => clamp v 0 100
            | none => 0
      c4 := match getVal values 3 with
            | some v => clamp v 0 1
            | none => 1 }

/-! ## Characters and grammar matchers (`PATTERNS`, `colorTest`) -/

/-- The characters matched by `\s` in the regular expressions (ASCII
whitespace plus NBSP; more exotic Unicode space separators are not
modelled). -/
def isJSSpace (c : Char) : Bool :=
  c = ' ' || c = '\t' || c = '\n' || c = '\r' || c = '\x0b' || c = '\x0c' || c = '\u00A0'

/-- `[\da-f]` under the `/i` flag. -/
def isHexDigitChar (c : Char) : Bool :=
  c.isDigit || ('a' ≤ c && c ≤ 'f') || ('A' ≤ c && c ≤ 'F')

/-- Value of a hexadecimal digit character. -/
def hexDigitVal (c : Char) : ℕ :=
  if c.isDigit then c.toNat - 48
  else if 'a' ≤ c && c ≤ 'f' then c.toNat - 87
  else c.toNat - 55

/-- Value of a decimal digit string. -/
def digitsToNat (ds : List Char) : ℕ :=
  ds.foldl (fun n c => n * 10 + (c.toNat - 48)) 0

/-- Value of a hexadecimal digit string. -/
def hexToNat (ds : List Char) : ℕ :=
  ds.foldl (fun n c => n * 16 + hexDigitVal c) 0

/-- Consume the leading `\s*`. -/
def trimStart (s : List Char) : List Char := s.dropWhile isJSSpace

/-- Drop the trailing `\s*`. -/
def trimEnd (s : List Char) : List Char := (s.reverse.dropWhile isJSSpace).reverse

/-- Drop the optional leading `#` (`#?`). -/
def stripHash : List Char → List Char
  | '#' :: r => r
  | s => s

/-- `PATTERNS.HEX.test`: `/^\s*#?([\da-f]{3}){1,2}([\da-f]{2})?\s*$/i`.
The digit count of a match is `3` or `6` from the `{1,2}` group plus an
optional `2` — i.e. exactly `3`, `5`, `6` or `8` (never `4`).  The
pattern is anchored and `\s`, `#` and `[\da-f]` are pairwise disjoint
classes, so the test is equivalent to: strip surrounding whitespace,
strip one optional leading `#`, and require a run of 3/5/6/8 hex
digits. -/
def hexTest (s : List Char) : Bool :=
  let u := stripHash (trimEnd (trimStart s))
  u.all isHexDigitChar && (u.length = 3 || u.length = 5 || u.length = 6 || u.length = 8)

/-- Exact value of a matched `\d{1,3}(\.\d+)?` group under `parseFloat`
(`ds` integer digits, `fs` fraction digits). -/
def decValue (ds fs : List Char) : ℚ :=
  (digitsToNat ds : ℚ) + (digitsToNat fs : ℚ) / 10 ^ fs.length

/-- Match `\d{1,maxIntDigits}(\.\d+)?` at the head of `s` and return its
`parseFloat` value and the rest.  Maximal munch is equivalent to the
regex here: any shorter parse leaves a digit (or a bare `.`) in front,
which no continuation of the surrounding grammars can match. -/
def parseNum (maxIntDigits : ℕ) (s : List Char) : Option (ℚ × List Char) :=
  let ds := s.takeWhile Char.isDigit
  let r1 := s.dropWhile Char.isDigit
  if ds.length = 0 ∨ maxIntDigits < ds.length then none
  else
    match r1 with
    | '.' :: r2 =>
      let fs := r2.takeWhile Char.isDigit
      if fs.length = 0 then none
      else some (decValue ds fs, r2.dropWhile Char.isDigit)
    | _ => some (decValue ds [], r1)

/-- Expect one literal character. -/
def expectChar (c : Char) : List Char → Option (List Char)
  | [] => none
  | d :: r => if d = c then some r else none

/-- Case-insensitive three-letter keyword (`rgb` / `hsl`). -/
def matchCI3 (p1 p2 p3 : Char) : List Char → Option (List Char)
  | a :: b :: c :: r => if a.toLower = p1 && b.toLower = p2 && c.toLower = p3 then some r else none
  | _ => none

/-- The optional `(a)?` after the keyword. -/
def matchOptA (s : List Char) : List Char :=
  match s with
  | c :: r => if c.toLower = 'a' then r else s
  | [] => s

/-- Deterministic matcher for the shared RGB/HSL grammar
`/^\s*kw(a)?\(\s*(?<r>\d{1,3}(\.\d+)?)\s*,\s*(?<g>…)\s*,\s*(?<b>…)\s*(,\s*(?<a>\d{1}(\.\d+)?))?\s*\)\s*$/i`
returning the `parseFloat` values of the four capture groups (the
fourth is `none` when the alpha group did not participate). -/
def funcMatch (p1 p2 p3 : Char) (s : List Char) : Option (ℚ × ℚ × ℚ × Option ℚ) := do
  let s1 ← matchCI3 p1 p2 p3 (trimStart s)
  let s3 ← expectChar '(' (matchOptA s1)
  let (v1, s4) ← parseNum 3 (trimStart s3)
  let s5 ← expectChar ',' (trimStart s4)
  let (v2, s6) ← parseNum 3 (trimStart s5)
  let s7 ← expectChar ',' (trimStart s6)
  let (v3, s8) ← parseNum 3 (trimStart s7)
  match trimStart s8 with
  | ',' :: s10 => do
    let (va, s11) ← parseNum 1 (trimStart s10)
    let s12 ← expectChar ')' (trimStart s11)
    if (trimStart s12).isEmpty then some (v1, v2, v3, some va) else none
  | s9 => do
    let s12 ← expectChar ')' s9
    if (trimStart s12).isEmpty then some (v1, v2, v3, none) else none

/-- `PATTERNS.RGB` as a matcher. -/
def rgbMatch (s : List Char) : Option (ℚ × ℚ × ℚ × Option ℚ) := funcMatch 'r' 'g' 'b' s

/-- `PATTERNS.HSL` as a matcher (same shape, `hsl` keyword; its capture
groups are also named `r`, `g`, `b`, `a` in the source). -/
def hslMatch (s : List Char) : Option (ℚ × ℚ × ℚ × Option ℚ) := funcMatch 'h' 's' 'l' s

/-- A color-string format tag (`ColorStringType`). -/
inductive ColorStringType where
  | RGB
  | HSL
  | HEX
deriving DecidableEq, Repr

/-- A color-array space tag (`ColorArrayType`). -/
inductive ColorArrayType where
  | RGB
  | HSL
deriving DecidableEq, Repr

/-- `colorTest(str)`: try the three patterns in declaration order
(`Object.keys(PATTERNS)` iterates RGB, HSL, HEX) and return the first
that tests true. -/
def colorTest (s : List Char) : Option ColorStringType :=
  if (rgbMatch s).isSome then some .RGB
  else if (hslMatch s).isSome then some .HSL
  else if hexTest s then some .HEX
  else none

/-! ## Parsers (`//#region parsing`) -/

/-- `parseRGB`: match, then `RGBArray` over the `parseFloat`ed groups
(`parseFloat(undefined)` is `NaN`, modelled as `none`). -/
def parseRGB (s : List Char) : Option CA :=
  match rgbMatch s with
  | none => none
  | some (r, g, b, a) => some (RGBArray [some r, some g, some b, a])

/-- `parseHSL`: match, then `HSLArray` over `[h, s, l, a]` — but the
source destructures `match.groups` as `{ h, s, l, a }` while the
pattern's groups are named `r`, `g`, `b`, `a`, so `h`, `s` and `l` are
always `undefined` (hence `NaN` after `parseFloat`); only the alpha
group survives. -/
def parseHSL (s : List Char) : Option CA :=
  match hslMatch s with
  | none => none
  | some (_, _, _, a) => some (HSLArray [none, none, none, a])

/-- `String.prototype.replace('#', …)` removes only the first occurrence. -/
def removeFirst (c : Char) : List Char → List Char
  | [] => []
  | d :: r => if d = c then r else d :: removeFirst c r

/-- Split into the 2-character groups scanned by the `parseHEX` loop
(the source only uses this when the length is even). -/
def chunks2 : List Char → List (List Char)
  | [] => []
  | [a] => [[a]]
  | a :: b :: r => [a, b] :: chunks2 r

/-- The optional sign accepted by JS `parseInt`. -/
def stripSign : List Char → Bool × List Char
  | '-' :: r => (true, r)
  | '+' :: r => (false, r)
  | s => (false, s)

/-- The optional `0x`/`0X` prefix accepted by JS `parseInt` at radix 16. -/
def strip0x : List Char → List Char
  | a :: b :: r => if a = '0' && (b = 'x' || b = 'X') then r else a :: b :: r
  | s => s

/-- JS `parseInt(str, 16)`: skip leading whitespace, optional sign,
optional `0x`/`0X` prefix, then the maximal run of hex digits; `NaN`
(`none`) when that run is empty. -/
def parseIntHex (s : List Char) : Option ℚ :=
  let signed := stripSign (trimStart s)
  let ds := (strip0x signed.2).takeWhile isHexDigitChar
  if ds.isEmpty then none
  else some (if signed.1 then -(hexToNat ds : ℚ) else (hexToNat ds : ℚ))

/-- `parseHEX`: on a pattern match, `matches[0]` is the whole string
(the pattern is anchored at both ends); remove the first `#`, split
into 2-character groups when the remaining length is even and
1-character groups (each doubled) when it is odd, `parseInt(…, 16)`
each group, remap a present 4th value from `[0,255]` to `[0,1]`, and
build the tuple with `RGBArray`. -/
def parseHEX (s : List Char) : Option CA :=
  if hexTest s then
    let hex := removeFirst '#' s
    let vals : List (Option ℚ) :=
      if hex.length % 2 = 0 then (chunks2 hex).map parseIntHex
      else hex.map (fun c => parseIntHex [c, c])
    let a : Option ℚ :=
      match (vals.getD 3 none) with
      | some v => some (map v 0 255 0 1 false)
      | none => none
    some (RGBArray [vals.getD 0 none, vals.getD 1 none, vals.getD 2 none, a])
  else none

/-! ## The name table and the dispatcher (`parseColor`) -/

/-- Modelled from the spec: the generated `css-colors` table (built
offline by `prebuild.js`, not part of `src/`) is "a static mapping from
canonical CSS color name (string key) to a precomputed RGB tuple".  It
is modelled as an association list of own keys; the claims proved here
only exercise lookup misses, so the value side never matters. -/
def Table : Type := List (List Char × CA)

/-- `Object.prototype.hasOwnProperty.call(cssColors, colorStr)`: an
own-property check — only the table's own keys are consulted, never
anything inherited from `Object.prototype`. -/
def hasOwnKey (t : Table) (s : List Char) : Bool :=
  (List.any t fun kv => kv.1 == s)

/-- `cssColors[colorStr]` on an own-key hit. -/
def lookupKey (t : Table) (s : List Char) : Option CA :=
  (List.find? (fun kv => kv.1 == s) t).map Prod.snd

/-- Property names every plain JS object inherits from
`Object.prototype`; a lookup that consulted the prototype chain would
"hit" on these. -/
def objectPrototypeProps : List (List Char) :=
  [("constructor").data, ("toString").data, ("toLocaleString").data,
   ("valueOf").data, ("hasOwnProperty").data, ("isPrototypeOf").data,
   ("propertyIsEnumerable").data]

/-- The grammar-dispatch part of `parseColor` (the `switch` over
`colorTest`): the RGB branch is tagged `RGB`, the HSL branch is tagged
`RGB` as well (source line 287 — not `HSL`), the HEX branch is tagged
`RGB`, and a miss yields the null tuple and null tag. -/
def parseColorGrammar (s : List Char) : Option CA × Option ColorArrayType :=
  match colorTest s with
  | some .RGB => (parseRGB s, some .RGB)
  | some .HSL => (parseHSL s, some .RGB)
  | some .HEX => (parseHEX s, some .RGB)
  | none => (none, none)

/-- `parseColor`: own-property name-table lookup first (a hit is tagged
`RGB`), otherwise the grammar dispatch. -/
def parseColor (table : Table) (s : List Char) : Option CA × Option ColorArrayType :=
  if hasOwnKey table s then (lookupKey table s, some .RGB)
  else parseColorGrammar s

/-- Modelled from the spec: a sample of the generated name table
(`red`, `lime`, `blue`, `black`, `white` with their RGB tuples), used to
instantiate theorems that quantify over the table. -/
def cssColorsSample : Table :=
  [(("red").data, ⟨255, 0, 0, 1⟩), (("lime").data, ⟨0, 255, 0, 1⟩),
   (("blue").data, ⟨0, 0, 255, 1⟩), (("black").data, ⟨0, 0, 0, 1⟩),
   (("white").data, ⟨255, 255, 255, 1⟩)]


/-! ## Conversion engine (`//#region conversion`) -/

/-- `mapRGB(rgba, low, high)`: normalize through `RGBArray`, then remap
each RGB channel from `[0,255]` and alpha from `[0,1]` to
`[low,high]` (unconstrained). -/
def mapRGB (rgba : List (Option ℚ)) (low high : ℚ) : CA :=
  if rgba.isEmpty then RGBArray [some low, some low, some low, some 1]
  else
    let c := RGBArray rgba
    { c1 := map c.c1 0 255 low high false
      c2 := map c.c2 0 255 low high false
      c3 := map c.c3 0 255 low high false
      c4 := map c.c4 0 1 low high false }

/-- `RGBToHSL(...rgba)`: min/max/chroma algorithm.  The `switch (cmax)`
tests `r`, `g`, `b` in order (first match wins; the trailing branch is
unreachable since `cmax` always equals one of them).  The `|| 0` after
`% 6` only rewrites `-0`/`NaN` to `0` and is the identity on exact
rationals. -/
def RGBToHSL (rgba : List (Option ℚ)) : CA :=
  if rgba.isEmpty then DEFAULT_HSL
  else
    let n := mapRGB rgba 0 1
    let cmin := min n.c1 (min n.c2 n.c3)
    let cmax := max n.c1 (max n.c2 n.c3)
    let delta := cmax - cmin
    let h0 : ℚ :=
      if cmax = n.c1 then jsRem (divSafe (n.c2 - n.c3) delta) 6
      else if cmax = n.c2 then divSafe (n.c3 - n.c1) delta + 2
      else if cmax = n.c3 then divSafe (n.c1 - n.c2) delta + 4
      else 0
    let h := map h0 0 6 0 360 false
    let l := divSafe (cmax + cmin) 2
    let s := divSafe delta (1 - |2 * l - 1|)
    HSLArray [some h, some (map s 0 1 0 100 false), some (map l 0 1 0 100 false), some n.c4]

/-- `roundRGB(...values)` (= `roundCA(values, 'RGB')`): normalize with
`RGBArray`, `Math.round` the channels, `roundFloat` the alpha at 3
decimals. -/
def roundRGB (values : List (Option ℚ)) : CA :=
  if values.isEmpty then DEFAULT_RGB
  else
    let c := RGBArray values
    { c1 := (jsRound c.c1 : ℚ), c2 := (jsRound c.c2 : ℚ), c3 := (jsRound c.c3 : ℚ),
      c4 := roundFloat c.c4 3 }

/-- `v.toString(16)` for the values that reach it in `RGBToHEX` — always
non-negative integers after rounding and clamping (lowercase hex
digits, no padding, `0 → "0"`). -/
def jsToString16 (v : ℚ) : List Char := Nat.toDigits 16 v.num.toNat

/-- The `hex.length === 2 ? hex : hex + hex` step of `RGBToHEX`: any
string that is not exactly 2 characters long is concatenated with
itself (for a 1-digit value this doubles the digit instead of
zero-padding it). -/
def hexPad (hx : List Char) : List Char := if hx.length = 2 then hx else hx ++ hx

/-- `RGBToHEX(...rgba)`: `roundRGB`, then format each channel (and,
when alpha ≠ 1, the alpha remapped to `[0,255]` and rounded) through
`toString(16)` and the doubling step; `''` for a full-opacity alpha. -/
def RGBToHEX (values : List (Option ℚ)) : List Char :=
  if values.isEmpty then ("#000000").data
  else
    let c := roundRGB values
    let alphaHex : List Char :=
      if c.c4 = 1 then []
      else hexPad (jsToString16 ((jsRound (map c.c4 0 1 0 255 true) : ℚ)))
    '#' :: (hexPad (jsToString16 c.c1) ++ hexPad (jsToString16 c.c2) ++
            hexPad (jsToString16 c.c3) ++ alphaHex)

/-- `HSLToRGB(...hsla)`: normalize through `HSLArray`, compute chroma
`c`, secondary component `x`, lightness offset `m`, pick the channel
assignment from the hue's 60-degree segment, and remap each channel to
`[0,255]` through `RGBArray`. -/
def HSLToRGB (hsla : List (Option ℚ)) : CA :=
  if hsla.isEmpty then DEFAULT_RGB
  else
    let p := HSLArray hsla
    let h := p.c1
    let s := normalize p.c2 0 100
    let l := normalize p.c3 0 100
    let c := (1 - |2 * l - 1|) * s
    let x := if h = 0 then 0 else c * (1 - |jsRem (h / (360 / 6)) 2 - 1|)
    let m := if c = 0 then l else l - c / 2
    let seg := segmentMap h 6 0 360
    let rgb : ℚ × ℚ × ℚ :=
      if seg = 0 then (c, x, 0)
      else if seg = 1 then (x, c, 0)
      else if seg = 2 then (0, c, x)
      else if seg = 3 then (0, x, c)
      else if seg = 4 then (x, 0, c)
      else if seg = 5 then (c, 0, x)
      else (0, 0, 0)
    RGBArray [some (map (rgb.1 + m) 0 1 0 255 false),
              some (map (rgb.2.1 + m) 0 1 0 255 false),
              some (map (rgb.2.2 + m) 0 1 0 255 false),
              some p.c4]

/-! ## Combination (`combineCA`) -/

/-- `ColorCombineOperator`: `'+' | '-' | '*' | '/'`. -/
inductive ColorCombineOperator where
  | add
  | sub
  | mul
  | divide
deriving DecidableEq, Repr

/-- One channel of the `switch (operator)` in `combineCA`. -/
def combineOp (op : ColorCombineOperator) (a b : ℚ) : ℚ :=
  match op with
  | .add => a + b
  | .sub => a - b
  | .mul => a * b
  | .divide => divSafe a b

/-- The space-selected array builder (`colorType === 'HSL' ? HSLArray :
RGBArray`). -/
def mkArr : ColorArrayType → List (Option ℚ) → CA
  | .RGB, v => RGBArray v
  | .HSL, v => HSLArray v

/-- `combineCA(c1, c2, operator, colorType)` on two 4-element tuples:
normalize `c1` through the space's builder, combine the first three
channels with the operator (the `i === 3 || !isNum(c2[i])` guard keeps
the alpha — and the second operand's entries are always numbers here),
then re-normalize the result through the same builder.  The `isArr`
guards and the `['+','-','*','/'].includes(operator)` check are
satisfied by the modelled types. -/
def combineCA (x y : CA) (op : ColorCombineOperator) (t : ColorArrayType) : CA :=
  let n := mkArr t (caToList x)
  mkArr t [some (combineOp op n.c1 y.c1), some (combineOp op n.c2 y.c2),
           some (combineOp op n.c3 y.c3), some n.c4]

/-! ## The `Color` object state (`//#region Color`) -/

/-- The closed-over state of a `Color` instance: one RGB tuple and one
HSL tuple.  (The `onChange` subscriber carries no tuple state and none
of the claims below concern it.) -/
structure ColorState where
  rgba : CA
  hsla : CA
deriving DecidableEq, Repr

/-- `setRGB(values)`: missing/non-numeric components fall back to the
current `rgba`; if nothing changed the update (and the notification) is
skipped; otherwise `rgba = RGBArray(r, g, b, a)` and then
`hsla = HSLArray(...rgba)` — the source builds the HSL tuple with the
HSL array *builder* applied to the RGB values, not with `RGBToHSL`. -/
def setRGB (st : ColorState) (values : List (Option ℚ)) : ColorState :=
  if values.isEmpty then st
  else
    let r := (getVal values 0).getD st.rgba.c1
    let g := (getVal values 1).getD st.rgba.c2
    let b := (getVal values 2).getD st.rgba.c3
    let a := (getVal values 3).getD st.rgba.c4
    if r = st.rgba.c1 ∧ g = st.rgba.c2 ∧ b = st.rgba.c3 ∧ a = st.rgba.c4 then st
    else
      let rgba' := RGBArray [some r, some g, some b, some a]
      { rgba := rgba', hsla := HSLArray (caToList rgba') }

/-- `setHSL(values)`: dual to `setRGB`, except the counterpart tuple is
computed with the conversion `HSLToRGB(...hsla)`. -/
def setHSL (st : ColorState) (values : List (Option ℚ)) : ColorState :=
  if values.isEmpty then st
  else
    let h := (getVal values 0).getD st.hsla.c1
    let s := (getVal values 1).getD st.hsla.c2
    let l := (getVal values 2).getD st.hsla.c3
    let a := (getVal values 3).getD st.hsla.c4
    if h = st.hsla.c1 ∧ s = st.hsla.c2 ∧ l = st.hsla.c3 ∧ a = st.hsla.c4 then st
    else
      let hsla' := HSLArray [some h, some s, some l, some a]
      { rgba := HSLToRGB (caToList hsla'), hsla := hsla' }

/-- `replaceAtIndex(arr, value, index)`: out-of-range index returns a
copy, otherwise one component is replaced.  (`index < 0` and the
`isNum` guard cannot arise for `ℕ`/`ℚ` arguments.) -/
def replaceAtIndex (arr : List ℚ) (value : ℚ) (index : ℕ) : List ℚ :=
  if arr.length ≤ index then arr else arr.set index value

/-- `replaceRGB(value, index)`: guard `index > 3`, then
`setRGB(replaceAtIndex(hsla, value, index))` — the source reads the
*HSL* tuple here, not `rgba` (src/unnamed/part_002 line 640). -/
def replaceRGB (st : ColorState) (value : ℚ) (index : ℕ) : ColorState :=
  if 3 < index then st
  else setRGB st ((replaceAtIndex (caList st.hsla) value index).map some)

/-- `replaceHSL(value, index)`: guard `index > 3`, then
`setHSL(replaceAtIndex(hsla, value, index))`. -/
def replaceHSL (st : ColorState) (value : ℚ) (index : ℕ) : ColorState :=
  if 3 < index then st
  else setHSL st ((replaceAtIndex (caList st.hsla) value index).map some)

/-- The `red` accessor's setter: `replaceRGB(r, 0)`. -/
def setRed (st : ColorState) (v : ℚ) : ColorState := replaceRGB st v 0

/-- The `green` accessor's setter: `replaceRGB(g, 1)`. -/
def setGreen (st : ColorState) (v : ℚ) : ColorState := replaceRGB st v 1

/-- The `blue` accessor's setter: `replaceRGB(b, 2)`. -/
def setBlue (st : ColorState) (v : ℚ) : ColorState := replaceRGB st v 2

/-- The `alpha` accessor's setter: `replaceRGB(a, 3)`. -/
def setAlpha (st : ColorState) (v : ℚ) : ColorState := replaceRGB st v 3

/-- The `hue` accessor's setter: `replaceHSL(h, 0)`. -/
def setHue (st : ColorState) (v : ℚ) : ColorState := replaceHSL st v 0

/-- The `saturation` accessor's setter: `replaceHSL(s, 0)` — the source
writes index `0` (the hue slot), not `1` (src/unnamed/part_002 line
675). -/
def setSaturation (st : ColorState) (v : ℚ) : ColorState := replaceHSL st v 0

/-- The `lightness` accessor's setter: `replaceHSL(l, 0)` — the source
writes index `0` (the hue slot), not `2` (src/unnamed/part_002 line
680). -/
def setLightness (st : ColorState) (v : ℚ) : ColorState := replaceHSL st v 0

/-- `Color(colorStr)` initialization: parse; on a null tuple or null
tag take the space defaults (`RGBArray()` / `HSLArray()`); otherwise
derive the counterpart space from the parsed tuple. -/
def mkColor (table : Table) (s : List Char) : ColorState :=
  match parseColor table s with
  | (some p, some t) =>
    match t with
    | .HSL => { rgba := HSLToRGB (caToList p), hsla := p }
    | .RGB => { rgba := p, hsla := RGBToHSL (caToList p) }
  | _ => { rgba := RGBArray [], hsla := HSLArray [] }

/-! ## Range predicates for the two spaces -/

/-- Channels in `[0,255]`, alpha in `[0,1]` — a valid RGB tuple. -/
def ValidRGB (c : CA) : Prop :=
  0 ≤ c.c1 ∧ c.c1 ≤ 255 ∧ 0 ≤ c.c2 ∧ c.c2 ≤ 255 ∧ 0 ≤ c.c3 ∧ c.c3 ≤ 255 ∧
    0 ≤ c.c4 ∧ c.c4 ≤ 1

/-- Hue in `[0,360)`, saturation/lightness in `[0,100]`, alpha in
`[0,1]` — a valid HSL tuple. -/
def ValidHSL (c : CA) : Prop :=
  0 ≤ c.c1 ∧ c.c1 < 360 ∧ 0 ≤ c.c2 ∧ c.c2 ≤ 100 ∧ 0 ≤ c.c3 ∧ c.c3 ≤ 100 ∧
    0 ≤ c.c4 ∧ c.c4 ≤ 1

/-- The valid range of the chosen space. -/
def ValidCA : ColorArrayType → CA → Prop
  | .RGB => ValidRGB
  | .HSL => ValidHSL


/-! ## Basic lemmas about the numeric utilities -/

theorem divSafe_of_ne (a b : ℚ) (hb : b ≠ 0) : divSafe a b = a / b := by
  unfold divSafe
  rcases eq_or_ne a 0 with rfl | ha
  · simp
  · simp [ha, hb]

theorem clamp_of_mem (v lo hi : ℚ) (h1 : lo ≤ v) (h2 : v ≤ hi) : clamp v lo hi = v := by
  unfold clamp
  rw [min_eq_left h2, max_eq_left h1]

theorem clamp_mem (v lo hi : ℚ) (h : lo ≤ hi) :
    lo ≤ clamp v lo hi ∧ clamp v lo hi ≤ hi := by
  unfold clamp
  constructor
  · exact le_max_right _ _
  · exact max_le (min_le_right _ _) h

theorem map_eval (v i0 i1 o0 o1 : ℚ) (h : i1 - i0 ≠ 0) :
    map v i0 i1 o0 o1 false = (v - i0) / (i1 - i0) * (o1 - o0) + o0 := by
  unfold map
  simp [divSafe_of_ne _ _ h]

theorem ratTrunc_of_nonneg (q : ℚ) (h : 0 ≤ q) : ratTrunc q = ⌊q⌋ := by
  unfold ratTrunc
  rw [if_pos h]

theorem ratTrunc_of_neg (q : ℚ) (h : q < 0) : ratTrunc q = ⌈q⌉ := by
  unfold ratTrunc
  rw [if_neg (not_le.mpr h)]

theorem jsRem_eval (v m : ℚ) (k : ℤ) (hm : 0 < m) (h1 : (k : ℚ) * m ≤ v)
    (h2 : v < (k + 1 : ℤ) * m) (hv : 0 ≤ v) : jsRem v m = v - m * k := by
  unfold jsRem
  rw [if_neg (ne_of_gt hm), ratTrunc_of_nonneg _ (div_nonneg hv hm.le)]
  have hfloor : ⌊v / m⌋ = k := by
    rw [Int.floor_eq_iff]
    push_cast at h2 ⊢
    constructor
    · rw [le_div_iff₀ hm]
      linarith
    · rw [div_lt_iff₀ hm]
      linarith
  rw [hfloor]

theorem jsRem_small (v m : ℚ) (hm : 0 < m) (h0 : 0 ≤ v) (h1 : v < m) :
    jsRem v m = v := by
  have := jsRem_eval v m 0 hm (by simpa using h0) (by simpa using h1) h0
  simpa using this

theorem jsRem_small_neg (v m : ℚ) (hm : 0 < m) (h0 : -m < v) (h1 : v < 0) :
    jsRem v m = v := by
  unfold jsRem
  rw [if_neg (ne_of_gt hm), ratTrunc_of_neg _ (div_neg_of_neg_of_pos h1 hm)]
  have hceil : ⌈v / m⌉ = 0 := by
    rw [Int.ceil_eq_iff]
    push_cast
    constructor
    · rw [lt_div_iff₀ hm]
      linarith
    · rw [div_nonpos_iff]
      exact Or.inr ⟨h1.le, hm.le⟩
  rw [hceil]
  push_cast
  ring

theorem euclideanModulo_of_mem (v m : ℚ) (hm : 0 < m) (h0 : 0 ≤ v) (h1 : v < m) :
    euclideanModulo v m = v := by
  unfold euclideanModulo
  rw [jsRem_small v m hm h0 h1,
    jsRem_eval (v + m) m 1 hm (by push_cast; linarith) (by push_cast; linarith) (by linarith)]
  push_cast
  ring

theorem euclideanModulo_of_neg (v m : ℚ) (hm : 0 < m) (h0 : -m < v) (h1 : v < 0) :
    euclideanModulo v m = v + m := by
  unfold euclideanModulo
  rw [jsRem_small_neg v m hm h0 h1, jsRem_small (v + m) m hm (by linarith) (by linarith)]

/-- `RGBArray` applied to a full argument list, componentwise. -/
theorem RGBArray_some (a b c d : ℚ) :
    RGBArray [some a, some b, some c, some d] =
      ⟨clamp a 0 255, clamp b 0 255, clamp c 0 255, if d = 1 then 1 else clamp d 0 1⟩ := rfl

/-- `HSLArray` applied to a full argument list, componentwise. -/
theorem HSLArray_some (a b c d : ℚ) :
    HSLArray [some a, some b, some c, some d] =
      ⟨euclideanModulo a 360, clamp b 0 100, clamp c 0 100, clamp d 0 1⟩ := rfl

theorem RGBArray_of_mem (u v w d : ℚ) (hu1 : 0 ≤ u) (hu2 : u ≤ 255) (hv1 : 0 ≤ v)
    (hv2 : v ≤ 255) (hw1 : 0 ≤ w) (hw2 : w ≤ 255) (hd1 : 0 ≤ d) (hd2 : d ≤ 1) :
    RGBArray [some u, some v, some w, some d] = ⟨u, v, w, d⟩ := by
  rw [RGBArray_some, clamp_of_mem _ _ _ hu1 hu2, clamp_of_mem _ _ _ hv1 hv2,
    clamp_of_mem _ _ _ hw1 hw2]
  rcases eq_or_ne d 1 with rfl | hd
  · simp
  · rw [if_neg hd, clamp_of_mem _ _ _ hd1 hd2]

set_option maxRecDepth 16384

/-! ## Claim theorems -/

/-- C1 (code bug): the claimed invariant — after every mutating
operation the stored HSL tuple is the RGB→HSL conversion of the stored
RGB tuple — is broken by `setRGB`, which recomputes `hsla` with the
`HSLArray` *builder* applied to the RGB channel values instead of the
`RGBToHSL` conversion (src/unnamed/part_002 line 592; `setHSL` does
convert, with `HSLToRGB`).  Assigning `rgb = [0,255,0,1]` to
`Color('#ff0000')` stores `hsla = [0,100,0,1]`, but the conversion of
the stored RGB tuple is `[120,100,50,1]`, and converting the stored HSL
tuple back gives `[0,0,0,1]`, not `[0,255,0,1]`. -/
theorem claimC1_setRGB_desync :
    setRGB (mkColor cssColorsSample (("#ff0000").data)) [some 0, some 255, some 0, some 1] =
      ⟨⟨0, 255, 0, 1⟩, ⟨0, 100, 0, 1⟩⟩ ∧
    RGBToHSL (caToList ⟨0, 255, 0, 1⟩) = ⟨120, 100, 50, 1⟩ ∧
    HSLToRGB (caToList ⟨0, 100, 0, 1⟩) = ⟨0, 0, 0, 1⟩ ∧
    ((⟨0, 100, 0, 1⟩ : CA) ≠ ⟨120, 100, 50, 1⟩) ∧ ((⟨0, 255, 0, 1⟩ : CA) ≠ ⟨0, 0, 0, 1⟩) := by
  with_unfolding_all decide

/-- C2 (code bug): `'hsl(120,50,50)'` misses the name table, fails the
RGB grammar and matches the HSL grammar, yet `parseColor` tags the
result `'RGB'`, not `'HSL'` (src/unnamed/part_002 line 287). -/
theorem claimC2_hsl_match_tagged_rgb :
    hasOwnKey cssColorsSample (("hsl(120,50,50)").data) = false ∧
    (rgbMatch (("hsl(120,50,50)").data)).isSome = false ∧
    (hslMatch (("hsl(120,50,50)").data)).isSome = true ∧
    parseColor cssColorsSample (("hsl(120,50,50)").data) =
      (some ⟨0, 100, 0, 1⟩, some ColorArrayType.RGB) := by
  with_unfolding_all decide

/-- C3 (code bug): the claimed `parseHEX`/`RGBToHEX` round trip fails at
`'#010203'`: the formatting step doubles a 1-character hex string
instead of zero-padding it (`hex.length === 2 ? hex : hex + hex`,
src/unnamed/part_002 line 482), so the bytes `1, 2, 3` format as
`'#112233'`, which differs from `'#010203'` even case-insensitively. -/
theorem claimC3_hex_roundtrip_fails :
    hexTest (("#010203").data) = true ∧
    parseHEX (("#010203").data) = some ⟨1, 2, 3, 1⟩ ∧
    RGBToHEX (caToList ⟨1, 2, 3, 1⟩) = ("#112233").data ∧
    (("#112233").data).map Char.toLower ≠ (("#010203").data).map Char.toLower := by
  with_unfolding_all decide

/-- C4 (code bug): the channel setters do not replace one component of
the owning tuple.  `replaceRGB` reads the HSL tuple (`replaceAtIndex(hsla,
value, index)`, src/unnamed/part_002 line 640), so on `Color('#ff0000')`
(state `rgba = [255,0,0,1]`, `hsla = [0,100,50,1]`) assigning
`red = 10` stores `rgba = [10,100,50,1]` instead of `[10,0,0,1]`; and
the `saturation` and `lightness` setters both write index 0 — the hue
slot — (lines 675 and 680), so `saturation = 60` stores
`hsla = [60,100,50,1]` instead of `[0,60,50,1]`, and `lightness = 75`
stores `hsla = [75,100,50,1]` instead of `[0,100,75,1]`. -/
theorem claimC4_channel_setters_misroute :
    mkColor cssColorsSample (("#ff0000").data) = ⟨⟨255, 0, 0, 1⟩, ⟨0, 100, 50, 1⟩⟩ ∧
    (setRed (mkColor cssColorsSample (("#ff0000").data)) 10).rgba = ⟨10, 100, 50, 1⟩ ∧
    ((setRed (mkColor cssColorsSample (("#ff0000").data)) 10).rgba ≠ ⟨10, 0, 0, 1⟩) ∧
    (setSaturation (mkColor cssColorsSample (("#ff0000").data)) 60).hsla = ⟨60, 100, 50, 1⟩ ∧
    ((setSaturation (mkColor cssColorsSample (("#ff0000").data)) 60).hsla ≠ ⟨0, 60, 50, 1⟩) ∧
    (setLightness (mkColor cssColorsSample (("#ff0000").data)) 75).hsla = ⟨75, 100, 50, 1⟩ ∧
    ((setLightness (mkColor cssColorsSample (("#ff0000").data)) 75).hsla ≠ ⟨0, 100, 75, 1⟩) := by
  with_unfolding_all decide

/-- C5 (counterexample): `HSLArray()` does not return `[0,0,0,1]` — the
zero-argument path returns `DEFAULT_COLORS.HSL`, whose saturation is the
space maximum `100`. -/
theorem claimC5_counterexample : HSLArray [] ≠ ⟨0, 0, 0, 1⟩ := by
  with_unfolding_all decide

/-- C5 (amended): `HSLArray()` returns `[0,100,0,1]` (saturation
defaults to the space maximum, hue/lightness to 0, alpha to 1), and the
result equals `HSLArray(undefined, undefined, undefined, undefined)`;
`RGBArray()` returns `[0,0,0,1]`, equal to its all-`undefined` call. -/
theorem claimC5_amended :
    HSLArray [] = ⟨0, 100, 0, 1⟩ ∧ HSLArray [none, none, none, none] = HSLArray [] ∧
    RGBArray [] = ⟨0, 0, 0, 1⟩ ∧ RGBArray [none, none, none, none] = RGBArray [] := by
  with_unfolding_all decide

/-- C9: a string that is not an own key of the name table and matches
none of the three grammars parses to the null tuple and null tag, and a
`Color` constructed from it is initialized to the space defaults
(`RGBArray()` and `HSLArray()`), without any error (all operations are
total). -/
theorem claimC9_unparseable_defaults (table : Table) (s : List Char)
    (hmiss : hasOwnKey table s = false) (hgram : colorTest s = none) :
    parseColor table s = (none, none) ∧
    (mkColor table s).rgba = ⟨0, 0, 0, 1⟩ ∧ (mkColor table s).hsla = ⟨0, 100, 0, 1⟩ := by
  have h1 : parseColor table s = (none, none) := by
    simp [parseColor, hmiss, parseColorGrammar, hgram]
  refine ⟨h1, ?_, ?_⟩ <;> simp [mkColor, h1] <;> rfl

/-- C9 witness: `parseColor('notacolor')` is `(null, null)` and
`Color('notacolor')` holds the default tuples (`.rgb = [0,0,0,1]`). -/
theorem claimC9_witness :
    parseColor cssColorsSample (("notacolor").data) = (none, none) ∧
    (mkColor cssColorsSample (("notacolor").data)).rgba = ⟨0, 0, 0, 1⟩ ∧
    (mkColor cssColorsSample (("notacolor").data)).hsla = ⟨0, 100, 0, 1⟩ :=
  claimC9_unparseable_defaults cssColorsSample (("notacolor").data) (by decide) (by decide)

/-- C10: the name-table lookup is an own-property check, so every
string that is not an own key of the table — including the property
names inherited from `Object.prototype` — falls through to the grammar
dispatch; and each of those prototype property names matches no
grammar, so parsing them yields the null result rather than an
inherited non-color value. -/
theorem claimC10_own_property_lookup (table : Table) (s : List Char)
    (hmiss : hasOwnKey table s = false) :
    parseColor table s = parseColorGrammar s ∧
    (s ∈ objectPrototypeProps → parseColor table s = (none, none)) := by
  have h1 : parseColor table s = parseColorGrammar s := by simp [parseColor, hmiss]
  refine ⟨h1, fun hs => ?_⟩
  rw [h1]
  simp only [objectPrototypeProps, List.mem_cons, List.not_mem_nil, or_false] at hs
  rcases hs with rfl | rfl | rfl | rfl | rfl | rfl | rfl <;> decide

/-- C10 witness: `'constructor'` (an `Object.prototype` property name
that is not an own key of the sample table) parses to `(null, null)`. -/
theorem claimC10_witness :
    parseColor cssColorsSample (("constructor").data) = (none, none) :=
  (claimC10_own_property_lookup cssColorsSample (("constructor").data) (by decide)).2
    (by decide)


/-! ## Builder range lemmas and C8 -/

theorem jsRem_lt (v m : ℚ) (hm : 0 < m) : -m < jsRem v m ∧ jsRem v m < m := by
  unfold jsRem
  rw [if_neg (ne_of_gt hm)]
  rcases le_or_lt 0 v with h | h
  · rw [ratTrunc_of_nonneg _ (div_nonneg h hm.le)]
    have h1 : (⌊v / m⌋ : ℚ) * m ≤ v := (le_div_iff₀ hm).mp (Int.floor_le _)
    have h2 : v < ((⌊v / m⌋ : ℚ) + 1) * m := (div_lt_iff₀ hm).mp (Int.lt_floor_add_one _)
    constructor <;> nlinarith
  · rw [ratTrunc_of_neg _ (div_neg_of_neg_of_pos h hm)]
    have h1 : v ≤ (⌈v / m⌉ : ℚ) * m := (div_le_iff₀ hm).mp (Int.le_ceil _)
    have h2 : ((⌈v / m⌉ : ℚ) - 1) * m < v := by
      rw [← lt_div_iff₀ hm]
      have := Int.ceil_lt_add_one (v / m)
      linarith
    constructor <;> nlinarith

theorem euclideanModulo_mem (v m : ℚ) (hm : 0 < m) :
    0 ≤ euclideanModulo v m ∧ euclideanModulo v m < m := by
  obtain ⟨hl, hr⟩ := jsRem_lt v m hm
  unfold euclideanModulo
  rcases lt_or_le (jsRem v m + m) m with h | h
  · rw [jsRem_small _ m hm (by linarith) h]
    constructor <;> linarith
  · rw [jsRem_eval _ m 1 hm (by push_cast; linarith) (by push_cast; linarith) (by linarith)]
    push_cast
    constructor <;> linarith

theorem rgb_alpha_of_mem (z : ℚ) (h0 : 0 ≤ z) (h1 : z ≤ 1) :
    (if z = 1 then 1 else clamp z 0 1) = z := by
  rcases eq_or_ne z 1 with rfl | h
  · simp
  · rw [if_neg h, clamp_of_mem _ _ _ h0 h1]

theorem validRGB_RGBArray (vs : List (Option ℚ)) : ValidRGB (RGBArray vs) := by
  unfold RGBArray ValidRGB
  split
  · unfold DEFAULT_RGB
    norm_num
  · refine ⟨?_, ?_, ?_, ?_, ?_, ?_, ?_, ?_⟩
    · cases hg : getVal vs 0
      · norm_num
      · exact (clamp_mem _ 0 255 (by norm_num)).1
    · cases hg : getVal vs 0
      · norm_num
      · exact (clamp_mem _ 0 255 (by norm_num)).2
    · cases hg : getVal vs 1
      · norm_num
      · exact (clamp_mem _ 0 255 (by norm_num)).1
    · cases hg : getVal vs 1
      · norm_num
      · exact (clamp_mem _ 0 255 (by norm_num)).2
    · cases hg : getVal vs 2
      · norm_num
      · exact (clamp_mem _ 0 255 (by norm_num)).1
    · cases hg : getVal vs 2
      · norm_num
      · exact (clamp_mem _ 0 255 (by norm_num)).2
    · cases hg : getVal vs 3
      · norm_num
      · rename_i v
        rcases eq_or_ne v 1 with rfl | h
        · norm_num
        · show (0 : ℚ) ≤ if v = 1 then 1 else clamp v 0 1
          rw [if_neg h]
          exact (clamp_mem _ 0 1 (by norm_num)).1
    · cases hg : getVal vs 3
      · norm_num
      · rename_i v
        rcases eq_or_ne v 1 with rfl | h
        · norm_num
        · show (if v = 1 then 1 else clamp v 0 1) ≤ 1
          rw [if_neg h]
          exact (clamp_mem _ 0 1 (by norm_num)).2

theorem validHSL_HSLArray (vs : List (Option ℚ)) : ValidHSL (HSLArray vs) := by
  unfold HSLArray ValidHSL
  split
  · unfold DEFAULT_HSL
    norm_num
  · refine ⟨?_, ?_, ?_, ?_, ?_, ?_, ?_, ?_⟩
    · cases hg : getVal vs 0
      · norm_num
      · exact (euclideanModulo_mem _ 360 (by norm_num)).1
    · cases hg : getVal vs 0
      · norm_num
      · exact (euclideanModulo_mem _ 360 (by norm_num)).2
    · cases hg : getVal vs 1
      · norm_num
      · exact (clamp_mem _ 0 100 (by norm_num)).1
    · cases hg : getVal vs 1
      · norm_num
      · exact (clamp_mem _ 0 100 (by norm_num)).2
    · cases hg : getVal vs 2
      · norm_num
      · exact (clamp_mem _ 0 100 (by norm_num)).1
    · cases hg : getVal vs 2
      · norm_num
      · exact (clamp_mem _ 0 100 (by norm_num)).2
    · cases hg : getVal vs 3
      · norm_num
      · exact (clamp_mem _ 0 1 (by norm_num)).1
    · cases hg : getVal vs 3
      · norm_num
      · exact (clamp_mem _ 0 1 (by norm_num)).2

/-- C8: for any two 4-element tuples, any of the four operators and
either space, `combineCA` leaves alpha out of the arithmetic — the
result's alpha is the first operand's alpha as normalized by the
space's array builder (the second operand's alpha is never read) — and
every channel of the result lies in the chosen space's valid range
(RGB: channels in `[0,255]`, alpha in `[0,1]`; HSL: hue in `[0,360)`,
saturation/lightness in `[0,100]`, alpha in `[0,1]`). -/
theorem claimC8_combine_alpha_frame_and_range (x y : CA) (op : ColorCombineOperator)
    (t : ColorArrayType) :
    (combineCA x y op t).c4 = (mkArr t (caToList x)).c4 ∧ ValidCA t (combineCA x y op t) := by
  cases t
  case RGB =>
    constructor
    · show (RGBArray _).c4 = (RGBArray (caToList x)).c4
      have hv := validRGB_RGBArray (caToList x)
      rw [RGBArray_some]
      exact rgb_alpha_of_mem _ hv.2.2.2.2.2.2.1 hv.2.2.2.2.2.2.2
    · exact validRGB_RGBArray _
  case HSL =>
    constructor
    · show (HSLArray _).c4 = (HSLArray (caToList x)).c4
      have hv := validHSL_HSLArray (caToList x)
      rw [HSLArray_some]
      exact clamp_of_mem _ _ _ hv.2.2.2.2.2.2.1 hv.2.2.2.2.2.2.2
    · exact validHSL_HSLArray _


/-! ## Character-class and list lemmas for the HEX grammar (C6) -/

theorem hex_not_space {c : Char} (h : isHexDigitChar c = true) : isJSSpace c = false := by
  cases hs : isJSSpace c
  · rfl
  · exfalso
    simp only [isJSSpace, Bool.or_eq_true, decide_eq_true_eq] at hs
    rcases hs with ((((((rfl | rfl) | rfl) | rfl) | rfl) | rfl) | rfl) <;> exact absurd h (by decide)

theorem hex_ne_hash {c : Char} (h : isHexDigitChar c = true) : c ≠ '#' := by
  rintro rfl
  exact absurd h (by decide)

theorem stripHash_cons_of_ne (a : Char) (r : List Char) (h : a ≠ '#') :
    stripHash (a :: r) = a :: r := by
  unfold stripHash
  split
  · rename_i heq
    injection heq with h1 h2
    exact absurd h1 h
  · rfl

theorem dropWhile_append_of_all (p : Char → Bool) (w l : List Char)
    (h : ∀ c ∈ w, p c = true) : List.dropWhile p (w ++ l) = List.dropWhile p l := by
  induction w with
  | nil => rfl
  | cons a t ih =>
    rw [List.cons_append, List.dropWhile_cons, if_pos (h a (List.mem_cons_self a t))]
    exact ih fun c hc => h c (List.mem_cons_of_mem a hc)

theorem dropWhile_cons_of_neg (p : Char → Bool) (a : Char) (l : List Char) (h : p a = false) :
    List.dropWhile p (a :: l) = a :: l := by
  rw [List.dropWhile_cons, if_neg (by simp [h])]

theorem isDigit_toNat {c : Char} (h : c.isDigit = true) : 48 ≤ c.toNat ∧ c.toNat ≤ 57 := by
  simp only [Char.isDigit, Bool.and_eq_true, decide_eq_true_eq, ge_iff_le] at h
  exact ⟨h.1, h.2⟩

theorem hexDigitVal_lt {c : Char} (h : isHexDigitChar c = true) : hexDigitVal c < 16 := by
  unfold hexDigitVal
  rcases hd : c.isDigit with _ | _
  · simp only [Bool.false_eq_true, if_false]
    simp only [isHexDigitChar, hd, Bool.false_or, Bool.or_eq_true] at h
    rcases hlo : ('a' ≤ c && c ≤ 'f') with _ | _
    · simp only [Bool.false_eq_true, if_false]
      rcases h with h | h
      · rw [hlo] at h
        exact absurd h (by simp)
      · simp only [Bool.and_eq_true, decide_eq_true_eq] at h
        obtain ⟨h1, h2⟩ := h
        rw [Char.le_def] at h1 h2
        have h1' : 65 ≤ c.toNat := h1
        have h2' : c.toNat ≤ 70 := h2
        omega
    · simp only [if_true]
      simp only [Bool.and_eq_true, decide_eq_true_eq] at hlo
      obtain ⟨h1, h2⟩ := hlo
      rw [Char.le_def] at h1 h2
      have h1' : 97 ≤ c.toNat := h1
      have h2' : c.toNat ≤ 102 := h2
      omega
  · simp only [if_true]
    obtain ⟨h1, h2⟩ := isDigit_toNat hd
    omega

/-- C6 (counterexample): the HEX grammar rejects the 4-digit form
`'#abcd'` that the claim says it accepts, and accepts the 5-digit
string `'abcde'` that the claim says it rejects. -/
theorem claimC6_counterexample :
    hexTest (("#abcd").data) = false ∧ hexTest (("abcde").data) = true := by
  decide

theorem stripHash_hash (r : List Char) : stripHash ('#' :: r) = r := rfl

theorem trimEnd_append (d w2 : List Char) (hw2 : ∀ c ∈ w2, isJSSpace c = true)
    (c : Char) (cs : List Char) (hcs : d.reverse = c :: cs) (hc : isJSSpace c = false) :
    trimEnd (d ++ w2) = d := by
  unfold trimEnd
  rw [List.reverse_append,
    dropWhile_append_of_all _ _ _ (fun x hx => hw2 x (List.mem_reverse.mp hx)), hcs,
    dropWhile_cons_of_neg _ _ _ hc, ← hcs, List.reverse_reverse]

/-- The HEX pattern accepts exactly the strings made of optional
whitespace, an optional `#`, a run of 3, 5, 6 or 8 hex digits and
optional whitespace. -/
theorem hexTest_iff (s : List Char) :
    hexTest s = true ↔
      ∃ w1 core w2 : List Char,
        (∀ c ∈ w1, isJSSpace c = true) ∧ (∀ c ∈ w2, isJSSpace c = true) ∧
        (∀ c ∈ core, isHexDigitChar c = true) ∧
        (core.length = 3 ∨ core.length = 5 ∨ core.length = 6 ∨ core.length = 8) ∧
        (s = w1 ++ '#' :: (core ++ w2) ∨ s = w1 ++ (core ++ w2)) := by
  constructor
  · intro h
    simp only [hexTest, Bool.and_eq_true, Bool.or_eq_true, List.all_eq_true,
      decide_eq_true_eq] at h
    obtain ⟨hall, hlen⟩ := h
    have hs2 : trimEnd (trimStart s) ++ ((trimStart s).reverse.takeWhile isJSSpace).reverse =
        trimStart s := by
      unfold trimEnd
      rw [← List.reverse_append, List.takeWhile_append_dropWhile, List.reverse_reverse]
    have hs1 : s = s.takeWhile isJSSpace ++ trimStart s := by
      unfold trimStart
      rw [List.takeWhile_append_dropWhile]
    have hw1 : ∀ c ∈ s.takeWhile isJSSpace, isJSSpace c = true :=
      fun c hc => List.mem_takeWhile_imp hc
    have hw2 : ∀ c ∈ ((trimStart s).reverse.takeWhile isJSSpace).reverse, isJSSpace c = true :=
      fun c hc => List.mem_takeWhile_imp (List.mem_reverse.mp hc)
    rcases ht : trimEnd (trimStart s) with _ | ⟨a, r⟩
    · rw [ht] at hlen
      simp [stripHash] at hlen
    · by_cases ha : a = '#'
      · subst ha
        rw [ht, stripHash_hash] at hall hlen
        refine ⟨s.takeWhile isJSSpace, r,
          ((trimStart s).reverse.takeWhile isJSSpace).reverse, hw1, hw2, hall, by tauto,
          Or.inl ?_⟩
        rw [← List.cons_append, ← ht, hs2]
        exact hs1
      · rw [ht, stripHash_cons_of_ne a r ha] at hall hlen
        refine ⟨s.takeWhile isJSSpace, a :: r,
          ((trimStart s).reverse.takeWhile isJSSpace).reverse, hw1, hw2, hall, by tauto,
          Or.inr ?_⟩
        rw [← ht, hs2]
        exact hs1
  · rintro ⟨w1, core, w2, hw1, hw2, hcore, hlen, hs | hs⟩ <;> subst hs
    · have hne : core ≠ [] := by
        rcases hlen with h | h | h | h <;> (intro hnil; rw [hnil] at h; simp at h)
      obtain ⟨c, cs, hcs⟩ : ∃ c cs, core.reverse = c :: cs := by
        rcases hrev : core.reverse with _ | ⟨c, cs⟩
        · exact absurd (List.reverse_eq_nil_iff.mp hrev) hne
        · exact ⟨c, cs, rfl⟩
      have hcmem : c ∈ core := List.mem_reverse.mp (hcs ▸ List.mem_cons_self c cs)
      have e1 : trimStart (w1 ++ '#' :: (core ++ w2)) = '#' :: (core ++ w2) := by
        unfold trimStart
        rw [dropWhile_append_of_all _ _ _ hw1, dropWhile_cons_of_neg _ _ _ (by decide)]
      have e2 : trimEnd ('#' :: (core ++ w2)) = '#' :: core := by
        have hd : (('#' : Char) :: core).reverse = c :: (cs ++ ['#']) := by
          rw [List.reverse_cons, hcs, List.cons_append]
        have hsplit : ('#' : Char) :: (core ++ w2) = ('#' :: core) ++ w2 := by simp
        rw [hsplit, trimEnd_append _ _ hw2 c (cs ++ ['#']) hd
          (hex_not_space (hcore c hcmem))]
      simp only [hexTest, e1, e2, stripHash_hash, Bool.and_eq_true, Bool.or_eq_true,
        List.all_eq_true, decide_eq_true_eq]
      exact ⟨hcore, by tauto⟩
    · have hne : core ≠ [] := by
        rcases hlen with h | h | h | h <;> (intro hnil; rw [hnil] at h; simp at h)
      obtain ⟨c, cs, hcs⟩ : ∃ c cs, core.reverse = c :: cs := by
        rcases hrev : core.reverse with _ | ⟨c, cs⟩
        · exact absurd (List.reverse_eq_nil_iff.mp hrev) hne
        · exact ⟨c, cs, rfl⟩
      have hcmem : c ∈ core := List.mem_reverse.mp (hcs ▸ List.mem_cons_self c cs)
      obtain ⟨d, ds, hds⟩ : ∃ d ds, core = d :: ds := by
        rcases core with _ | ⟨d, ds⟩
        · exact absurd rfl hne
        · exact ⟨d, ds, rfl⟩
      have hdmem : d ∈ core := hds ▸ List.mem_cons_self d ds
      have e1 : trimStart (w1 ++ (core ++ w2)) = core ++ w2 := by
        unfold trimStart
        rw [dropWhile_append_of_all _ _ _ hw1, hds, List.cons_append,
          dropWhile_cons_of_neg _ _ _ (hex_not_space (hcore d hdmem)), ← List.cons_append,
          ← hds]
      have e2 : trimEnd (core ++ w2) = core :=
        trimEnd_append _ _ hw2 c cs hcs (hex_not_space (hcore c hcmem))
      have e3 : stripHash core = core := by
        rw [hds, stripHash_cons_of_ne d ds (hex_ne_hash (hcore d hdmem))]
      simp only [hexTest, e1, e2, e3, Bool.and_eq_true, Bool.or_eq_true, List.all_eq_true,
        decide_eq_true_eq]
      exact ⟨hcore, by tauto⟩


theorem hex_ne_minus {c : Char} (h : isHexDigitChar c = true) : c ≠ '-' := by
  rintro rfl
  exact absurd h (by decide)

theorem hex_ne_plus {c : Char} (h : isHexDigitChar c = true) : c ≠ '+' := by
  rintro rfl
  exact absurd h (by decide)

theorem stripSign_of_ne (a : Char) (r : List Char) (h1 : a ≠ '-') (h2 : a ≠ '+') :
    stripSign (a :: r) = (false, a :: r) := by
  unfold stripSign
  split
  · rename_i heq
    injection heq with hx
    exact absurd hx h1
  · rename_i heq
    injection heq with hx
    exact absurd hx h2
  · rfl

theorem strip0x_eval (a b : Char) (r : List Char) :
    strip0x (a :: b :: r) = if (a = '0' && (b = 'x' || b = 'X')) = true then r
      else a :: b :: r := rfl

theorem hex_no_0x {a b : Char} (hb : isHexDigitChar b = true) :
    (a = '0' && (b = 'x' || b = 'X')) = false := by
  have h1 : b ≠ 'x' := by
    rintro rfl
    exact absurd hb (by decide)
  have h2 : b ≠ 'X' := by
    rintro rfl
    exact absurd hb (by decide)
  simp [h1, h2]

theorem trimStart_cons_of_neg (a : Char) (l : List Char) (h : isJSSpace a = false) :
    trimStart (a :: l) = a :: l :=
  dropWhile_cons_of_neg _ _ _ h

/-- `parseInt(d₁d₂, 16)` on two hex digits. -/
theorem parseIntHex_pair (a b : Char) (ha : isHexDigitChar a = true)
    (hb : isHexDigitChar b = true) :
    parseIntHex [a, b] = some ((16 * hexDigitVal a + hexDigitVal b : ℕ) : ℚ) := by
  simp only [parseIntHex]
  rw [trimStart_cons_of_neg _ _ (hex_not_space ha),
    stripSign_of_ne _ _ (hex_ne_minus ha) (hex_ne_plus ha)]
  simp only [strip0x_eval]
  have h0x : (a = '0' && (b = 'x' || b = 'X')) = false := hex_no_0x hb
  rw [h0x]
  simp only [Bool.false_eq_true, if_false]
  rw [List.takeWhile_cons, if_pos ha, List.takeWhile_cons, if_pos hb, List.takeWhile_nil]
  simp only [hexToNat, List.isEmpty_cons, Bool.false_eq_true, if_false, List.foldl_cons,
    List.foldl_nil, Nat.zero_mul, Nat.zero_add, Option.some.injEq]
  push_cast
  ring

/-- `parseInt(d + d, 16)` — the digit-doubling step for odd-length
matches. -/
theorem parseIntHex_double (c : Char) (hc : isHexDigitChar c = true) :
    parseIntHex [c, c] = some ((17 * hexDigitVal c : ℕ) : ℚ) := by
  rw [parseIntHex_pair c c hc hc]
  congr 1
  push_cast
  ring

theorem removeFirst_of_ne (c : Char) (l : List Char) (h : ∀ x ∈ l, x ≠ c) :
    removeFirst c l = l := by
  induction l with
  | nil => rfl
  | cons a t ih =>
    unfold removeFirst
    rw [if_neg (h a (List.mem_cons_self a t)), ih fun x hx => h x (List.mem_cons_of_mem a hx)]

theorem hexByte_mem (v : ℕ) (h : v < 16) :
    (0 : ℚ) ≤ ((17 * v : ℕ) : ℚ) ∧ ((17 * v : ℕ) : ℚ) ≤ 255 := by
  constructor
  · positivity
  · exact_mod_cast (by omega : (17 * v : ℕ) ≤ 255)

theorem pairByte_mem (va vb : ℕ) (ha : va < 16) (hb : vb < 16) :
    (0 : ℚ) ≤ ((16 * va + vb : ℕ) : ℚ) ∧ ((16 * va + vb : ℕ) : ℚ) ≤ 255 := by
  constructor
  · positivity
  · exact_mod_cast (by omega : (16 * va + vb : ℕ) ≤ 255)

theorem RGBArray_some3 (a b c : ℚ) :
    RGBArray [some a, some b, some c, none] =
      ⟨clamp a 0 255, clamp b 0 255, clamp c 0 255, 1⟩ := rfl


theorem mem_three {c c1 c2 c3 : Char} (hc : c ∈ [c1, c2, c3]) :
    c = c1 ∨ c = c2 ∨ c = c3 := by
  simpa using hc

/-- `parseHEX` on a 3-digit match: every digit is doubled, alpha
defaults to 1. -/
theorem parseHEX_three (c1 c2 c3 : Char) (h1 : isHexDigitChar c1 = true)
    (h2 : isHexDigitChar c2 = true) (h3 : isHexDigitChar c3 = true) :
    parseHEX ('#' :: [c1, c2, c3]) =
      some ⟨((17 * hexDigitVal c1 : ℕ) : ℚ), ((17 * hexDigitVal c2 : ℕ) : ℚ),
            ((17 * hexDigitVal c3 : ℕ) : ℚ), 1⟩ := by
  have hhex : hexTest ('#' :: [c1, c2, c3]) = true := by
    refine (hexTest_iff _).mpr ⟨[], [c1, c2, c3], [], by simp, by simp, ?_, by norm_num,
      Or.inl (by simp)⟩
    intro c hc
    rcases mem_three hc with rfl | rfl | rfl <;> assumption
  simp only [parseHEX]
  rw [if_pos hhex]
  have hrm : removeFirst '#' ('#' :: [c1, c2, c3]) = [c1, c2, c3] := by
    simp [removeFirst]
  rw [hrm]
  rw [if_neg (by norm_num)]
  simp only [List.map_cons, List.map_nil, parseIntHex_double c1 h1, parseIntHex_double c2 h2,
    parseIntHex_double c3 h3]
  simp only [List.getD_cons_zero, List.getD_cons_succ, List.getD_nil]
  rw [RGBArray_some3,
    clamp_of_mem _ _ _ (hexByte_mem _ (hexDigitVal_lt h1)).1 (hexByte_mem _ (hexDigitVal_lt h1)).2,
    clamp_of_mem _ _ _ (hexByte_mem _ (hexDigitVal_lt h2)).1 (hexByte_mem _ (hexDigitVal_lt h2)).2,
    clamp_of_mem _ _ _ (hexByte_mem _ (hexDigitVal_lt h3)).1 (hexByte_mem _ (hexDigitVal_lt h3)).2]

/-- `parseHEX` on the (accidentally accepted) 5-digit match: the five
digits are doubled, the first three give the channels, the fourth is
alpha remapped from `[0,255]` to `[0,1]`, the fifth is ignored. -/
theorem parseHEX_five (c1 c2 c3 c4 c5 : Char) (h1 : isHexDigitChar c1 = true)
    (h2 : isHexDigitChar c2 = true) (h3 : isHexDigitChar c3 = true)
    (h4 : isHexDigitChar c4 = true) (h5 : isHexDigitChar c5 = true) :
    parseHEX [c1, c2, c3, c4, c5] =
      some ⟨((17 * hexDigitVal c1 : ℕ) : ℚ), ((17 * hexDigitVal c2 : ℕ) : ℚ),
            ((17 * hexDigitVal c3 : ℕ) : ℚ), ((17 * hexDigitVal c4 : ℕ) : ℚ) / 255⟩ := by
  have hmem : ∀ c ∈ [c1, c2, c3, c4, c5], isHexDigitChar c = true := by
    intro c hc
    simp only [List.mem_cons, List.not_mem_nil, or_false] at hc
    rcases hc with rfl | rfl | rfl | rfl | rfl <;> assumption
  have hhex : hexTest [c1, c2, c3, c4, c5] = true := by
    exact (hexTest_iff _).mpr ⟨[], [c1, c2, c3, c4, c5], [], by simp, by simp, hmem,
      by norm_num, Or.inr (by simp)⟩
  simp only [parseHEX]
  rw [if_pos hhex]
  have hrm : removeFirst '#' [c1, c2, c3, c4, c5] = [c1, c2, c3, c4, c5] :=
    removeFirst_of_ne _ _ fun x hx => hex_ne_hash (hmem x hx)
  rw [hrm]
  rw [if_neg (by norm_num)]
  simp only [List.map_cons, List.map_nil, parseIntHex_double c1 h1, parseIntHex_double c2 h2,
    parseIntHex_double c3 h3, parseIntHex_double c4 h4, parseIntHex_double c5 h5]
  simp only [List.getD_cons_zero, List.getD_cons_succ, List.getD_nil]
  have hmap : map ((17 * hexDigitVal c4 : ℕ) : ℚ) 0 255 0 1 false =
      ((17 * hexDigitVal c4 : ℕ) : ℚ) / 255 := by
    rw [map_eval _ _ _ _ _ (by norm_num)]
    ring
  rw [hmap, RGBArray_some,
    clamp_of_mem _ _ _ (hexByte_mem _ (hexDigitVal_lt h1)).1 (hexByte_mem _ (hexDigitVal_lt h1)).2,
    clamp_of_mem _ _ _ (hexByte_mem _ (hexDigitVal_lt h2)).1 (hexByte_mem _ (hexDigitVal_lt h2)).2,
    clamp_of_mem _ _ _ (hexByte_mem _ (hexDigitVal_lt h3)).1 (hexByte_mem _ (hexDigitVal_lt h3)).2,
    rgb_alpha_of_mem _ (by positivity)
      (by
        rw [div_le_one (by norm_num)]
        exact (hexByte_mem _ (hexDigitVal_lt h4)).2)]

/-- `parseHEX` on a 6-digit match: 2-digit groups give the channels,
alpha defaults to 1. -/
theorem parseHEX_six (c1 c2 c3 c4 c5 c6 : Char) (h1 : isHexDigitChar c1 = true)
    (h2 : isHexDigitChar c2 = true) (h3 : isHexDigitChar c3 = true)
    (h4 : isHexDigitChar c4 = true) (h5 : isHexDigitChar c5 = true)
    (h6 : isHexDigitChar c6 = true) :
    parseHEX ('#' :: [c1, c2, c3, c4, c5, c6]) =
      some ⟨((16 * hexDigitVal c1 + hexDigitVal c2 : ℕ) : ℚ),
            ((16 * hexDigitVal c3 + hexDigitVal c4 : ℕ) : ℚ),
            ((16 * hexDigitVal c5 + hexDigitVal c6 : ℕ) : ℚ), 1⟩ := by
  have hmem : ∀ c ∈ [c1, c2, c3, c4, c5, c6], isHexDigitChar c = true := by
    intro c hc
    simp only [List.mem_cons, List.not_mem_nil, or_false] at hc
    rcases hc with rfl | rfl | rfl | rfl | rfl | rfl <;> assumption
  have hhex : hexTest ('#' :: [c1, c2, c3, c4, c5, c6]) = true := by
    exact (hexTest_iff _).mpr ⟨[], [c1, c2, c3, c4, c5, c6], [], by simp, by simp, hmem,
      by norm_num, Or.inl (by simp)⟩
  simp only [parseHEX]
  rw [if_pos hhex]
  have hrm : removeFirst '#' ('#' :: [c1, c2, c3, c4, c5, c6]) = [c1, c2, c3, c4, c5, c6] := by
    simp [removeFirst]
  rw [hrm]
  rw [if_pos (by norm_num)]
  show some (RGBArray _) = _
  rw [show chunks2 [c1, c2, c3, c4, c5, c6] = [[c1, c2], [c3, c4], [c5, c6]] from rfl]
  simp only [List.map_cons, List.map_nil, parseIntHex_pair c1 c2 h1 h2,
    parseIntHex_pair c3 c4 h3 h4, parseIntHex_pair c5 c6 h5 h6]
  simp only [List.getD_cons_zero, List.getD_cons_succ, List.getD_nil]
  rw [RGBArray_some3,
    clamp_of_mem _ _ _ (pairByte_mem _ _ (hexDigitVal_lt h1) (hexDigitVal_lt h2)).1
      (pairByte_mem _ _ (hexDigitVal_lt h1) (hexDigitVal_lt h2)).2,
    clamp_of_mem _ _ _ (pairByte_mem _ _ (hexDigitVal_lt h3) (hexDigitVal_lt h4)).1
      (pairByte_mem _ _ (hexDigitVal_lt h3) (hexDigitVal_lt h4)).2,
    clamp_of_mem _ _ _ (pairByte_mem _ _ (hexDigitVal_lt h5) (hexDigitVal_lt h6)).1
      (pairByte_mem _ _ (hexDigitVal_lt h5) (hexDigitVal_lt h6)).2]

/-- `parseHEX` on an 8-digit match: 2-digit groups, the 4th group is
alpha remapped from `[0,255]` to `[0,1]`. -/
theorem parseHEX_eight (c1 c2 c3 c4 c5 c6 c7 c8 : Char) (h1 : isHexDigitChar c1 = true)
    (h2 : isHexDigitChar c2 = true) (h3 : isHexDigitChar c3 = true)
    (h4 : isHexDigitChar c4 = true) (h5 : isHexDigitChar c5 = true)
    (h6 : isHexDigitChar c6 = true) (h7 : isHexDigitChar c7 = true)
    (h8 : isHexDigitChar c8 = true) :
    parseHEX ('#' :: [c1, c2, c3, c4, c5, c6, c7, c8]) =
      some ⟨((16 * hexDigitVal c1 + hexDigitVal c2 : ℕ) : ℚ),
            ((16 * hexDigitVal c3 + hexDigitVal c4 : ℕ) : ℚ),
            ((16 * hexDigitVal c5 + hexDigitVal c6 : ℕ) : ℚ),
            ((16 * hexDigitVal c7 + hexDigitVal c8 : ℕ) : ℚ) / 255⟩ := by
  have hmem : ∀ c ∈ [c1, c2, c3, c4, c5, c6, c7, c8], isHexDigitChar c = true := by
    intro c hc
    simp only [List.mem_cons, List.not_mem_nil, or_false] at hc
    rcases hc with rfl | rfl | rfl | rfl | rfl | rfl | rfl | rfl <;> assumption
  have hhex : hexTest ('#' :: [c1, c2, c3, c4, c5, c6, c7, c8]) = true := by
    exact (hexTest_iff _).mpr ⟨[], [c1, c2, c3, c4, c5, c6, c7, c8], [], by simp, by simp,
      hmem, by norm_num, Or.inl (by simp)⟩
  simp only [parseHEX]
  rw [if_pos hhex]
  have hrm : removeFirst '#' ('#' :: [c1, c2, c3, c4, c5, c6, c7, c8]) =
      [c1, c2, c3, c4, c5, c6, c7, c8] := by
    simp [removeFirst]
  rw [hrm]
  rw [if_pos (by norm_num)]
  show some (RGBArray _) = _
  rw [show chunks2 [c1, c2, c3, c4, c5, c6, c7, c8] =
    [[c1, c2], [c3, c4], [c5, c6], [c7, c8]] from rfl]
  simp only [List.map_cons, List.map_nil, parseIntHex_pair c1 c2 h1 h2,
    parseIntHex_pair c3 c4 h3 h4, parseIntHex_pair c5 c6 h5 h6, parseIntHex_pair c7 c8 h7 h8]
  simp only [List.getD_cons_zero, List.getD_cons_succ, List.getD_nil]
  have hmap : map ((16 * hexDigitVal c7 + hexDigitVal c8 : ℕ) : ℚ) 0 255 0 1 false =
      ((16 * hexDigitVal c7 + hexDigitVal c8 : ℕ) : ℚ) / 255 := by
    rw [map_eval _ _ _ _ _ (by norm_num)]
    ring
  rw [hmap, RGBArray_some,
    clamp_of_mem _ _ _ (pairByte_mem _ _ (hexDigitVal_lt h1) (hexDigitVal_lt h2)).1
      (pairByte_mem _ _ (hexDigitVal_lt h1) (hexDigitVal_lt h2)).2,
    clamp_of_mem _ _ _ (pairByte_mem _ _ (hexDigitVal_lt h3) (hexDigitVal_lt h4)).1
      (pairByte_mem _ _ (hexDigitVal_lt h3) (hexDigitVal_lt h4)).2,
    clamp_of_mem _ _ _ (pairByte_mem _ _ (hexDigitVal_lt h5) (hexDigitVal_lt h6)).1
      (pairByte_mem _ _ (hexDigitVal_lt h5) (hexDigitVal_lt h6)).2,
    rgb_alpha_of_mem _ (by positivity)
      (by
        rw [div_le_one (by norm_num)]
        exact (pairByte_mem _ _ (hexDigitVal_lt h7) (hexDigitVal_lt h8)).2)]


/-- C6 (amended): the HEX grammar accepts exactly the strings that are
optional whitespace, an optional `#`, and 3, 5, 6 or 8 hex digits
(not 4 — `([\da-f]{3}){1,2}([\da-f]{2})?` yields 3/5/6/8), followed by
optional whitespace; `parseHEX` doubles each digit of an odd-length
(3- or 5-digit) match and splits an even-length (6- or 8-digit) match
into 2-digit groups, and a present 4th group (the 8-digit form's last
pair, or the 5-digit form's 4th doubled digit) is alpha remapped from
`[0,255]` to `[0,1]`. -/
theorem claimC6_amended :
    (∀ s : List Char, hexTest s = true ↔
      ∃ w1 core w2 : List Char,
        (∀ c ∈ w1, isJSSpace c = true) ∧ (∀ c ∈ w2, isJSSpace c = true) ∧
        (∀ c ∈ core, isHexDigitChar c = true) ∧
        (core.length = 3 ∨ core.length = 5 ∨ core.length = 6 ∨ core.length = 8) ∧
        (s = w1 ++ '#' :: (core ++ w2) ∨ s = w1 ++ (core ++ w2))) ∧
    (∀ c1 c2 c3 : Char, isHexDigitChar c1 = true → isHexDigitChar c2 = true →
      isHexDigitChar c3 = true →
      parseHEX ('#' :: [c1, c2, c3]) =
        some ⟨((17 * hexDigitVal c1 : ℕ) : ℚ), ((17 * hexDigitVal c2 : ℕ) : ℚ),
              ((17 * hexDigitVal c3 : ℕ) : ℚ), 1⟩) ∧
    (∀ c1 c2 c3 c4 c5 : Char, isHexDigitChar c1 = true → isHexDigitChar c2 = true →
      isHexDigitChar c3 = true → isHexDigitChar c4 = true → isHexDigitChar c5 = true →
      parseHEX [c1, c2, c3, c4, c5] =
        some ⟨((17 * hexDigitVal c1 : ℕ) : ℚ), ((17 * hexDigitVal c2 : ℕ) : ℚ),
              ((17 * hexDigitVal c3 : ℕ) : ℚ), ((17 * hexDigitVal c4 : ℕ) : ℚ) / 255⟩) ∧
    (∀ c1 c2 c3 c4 c5 c6 : Char, isHexDigitChar c1 = true → isHexDigitChar c2 = true →
      isHexDigitChar c3 = true → isHexDigitChar c4 = true → isHexDigitChar c5 = true →
      isHexDigitChar c6 = true →
      parseHEX ('#' :: [c1, c2, c3, c4, c5, c6]) =
        some ⟨((16 * hexDigitVal c1 + hexDigitVal c2 : ℕ) : ℚ),
              ((16 * hexDigitVal c3 + hexDigitVal c4 : ℕ) : ℚ),
              ((16 * hexDigitVal c5 + hexDigitVal c6 : ℕ) : ℚ), 1⟩) ∧
    (∀ c1 c2 c3 c4 c5 c6 c7 c8 : Char, isHexDigitChar c1 = true → isHexDigitChar c2 = true →
      isHexDigitChar c3 = true → isHexDigitChar c4 = true → isHexDigitChar c5 = true →
      isHexDigitChar c6 = true → isHexDigitChar c7 = true → isHexDigitChar c8 = true →
      parseHEX ('#' :: [c1, c2, c3, c4, c5, c6, c7, c8]) =
        some ⟨((16 * hexDigitVal c1 + hexDigitVal c2 : ℕ) : ℚ),
              ((16 * hexDigitVal c3 + hexDigitVal c4 : ℕ) : ℚ),
              ((16 * hexDigitVal c5 + hexDigitVal c6 : ℕ) : ℚ),
              ((16 * hexDigitVal c7 + hexDigitVal c8 : ℕ) : ℚ) / 255⟩) :=
  ⟨hexTest_iff, parseHEX_three, parseHEX_five, parseHEX_six, parseHEX_eight⟩

/-- C6 witness: `'#1af'` is accepted and parses to `[17, 170, 255, 1]`
(each digit doubled), instantiating the amended claim. -/
theorem claimC6_amended_witness :
    hexTest (("#1af").data) = true ∧
    parseHEX ('#' :: ['1', 'a', 'f']) = some ⟨17, 170, 255, 1⟩ := by
  constructor
  · exact (claimC6_amended.1 (("#1af").data)).mpr
      ⟨[], ['1', 'a', 'f'], [], by decide, by decide, by decide, by decide,
        Or.inl (by decide)⟩
  · have h := claimC6_amended.2.1 '1' 'a' 'f' (by decide) (by decide) (by decide)
    rw [h]
    with_unfolding_all decide


/-! ## The RGB↔HSL round trip (C7)

The abbreviations below are proof-layer names for the internal `let`s
of `RGBToHSL` and `HSLToRGB` (on already-normalized channel values);
they model nothing new of their own. -/

/-- The `cmax` of `RGBToHSL`. -/
def cmax3 (R G B : ℚ) : ℚ := max R (max G B)

/-- The `cmin` of `RGBToHSL`. -/
def cmin3 (R G B : ℚ) : ℚ := min R (min G B)

/-- The pre-scaling hue of `RGBToHSL` (`h` before `map(h, 0, 6, 0, 360)`). -/
def hue0 (R G B : ℚ) : ℚ :=
  if cmax3 R G B = R then jsRem (divSafe (G - B) (cmax3 R G B - cmin3 R G B)) 6
  else if cmax3 R G B = G then divSafe (B - R) (cmax3 R G B - cmin3 R G B) + 2
  else if cmax3 R G B = B then divSafe (R - G) (cmax3 R G B - cmin3 R G B) + 4
  else 0

/-- The pre-scaling lightness of `RGBToHSL`. -/
def light3 (R G B : ℚ) : ℚ := divSafe (cmax3 R G B + cmin3 R G B) 2

/-- The pre-scaling saturation of `RGBToHSL`. -/
def sat3 (R G B : ℚ) : ℚ :=
  divSafe (cmax3 R G B - cmin3 R G B) (1 - |2 * light3 R G B - 1|)

/-- The chroma `c` of `HSLToRGB`, in terms of the stored S/L slots. -/
def chromaOf (S L : ℚ) : ℚ := (1 - |2 * (L / 100) - 1|) * (S / 100)

/-- The lightness-matching offset `m` of `HSLToRGB`. -/
def offsetOf (S L : ℚ) : ℚ :=
  if chromaOf S L = 0 then L / 100 else L / 100 - chromaOf S L / 2

theorem map_eval_true (v i0 i1 o0 o1 : ℚ) (h : i1 - i0 ≠ 0) :
    map v i0 i1 o0 o1 true =
      clamp ((v - i0) / (i1 - i0) * (o1 - o0) + o0) (min o0 o1) (max o0 o1) := by
  unfold map
  rw [divSafe_of_ne _ _ h]
  rfl

theorem normalize_unit (v hi : ℚ) (h0 : 0 ≤ v) (h1 : v ≤ hi) (hhi : 0 < hi) :
    normalize v 0 hi = v / hi := by
  unfold normalize
  rw [map_eval_true _ _ _ _ _ (by rw [sub_zero]; exact ne_of_gt hhi)]
  rw [(by ring : (v - 0) / (hi - 0) * (1 - 0) + 0 = v / hi)]
  rw [(by norm_num : min (0 : ℚ) 1 = 0), (by norm_num : max (0 : ℚ) 1 = 1)]
  exact clamp_of_mem _ _ _ (div_nonneg h0 hhi.le) ((div_le_one hhi).mpr h1)

theorem mapRGB_unit (r g b a : ℚ) (hr0 : 0 ≤ r) (hr1 : r ≤ 255) (hg0 : 0 ≤ g)
    (hg1 : g ≤ 255) (hb0 : 0 ≤ b) (hb1 : b ≤ 255) (ha0 : 0 ≤ a) (ha1 : a ≤ 1) :
    mapRGB [some r, some g, some b, some a] 0 1 = ⟨r / 255, g / 255, b / 255, a⟩ := by
  unfold mapRGB
  rw [if_neg (by simp)]
  rw [RGBArray_of_mem r g b a hr0 hr1 hg0 hg1 hb0 hb1 ha0 ha1]
  show (⟨map r 0 255 0 1 false, map g 0 255 0 1 false, map b 0 255 0 1 false,
        map a 0 1 0 1 false⟩ : CA) = _
  rw [map_eval _ _ _ _ _ (by norm_num), map_eval _ _ _ _ _ (by norm_num),
    map_eval _ _ _ _ _ (by norm_num), map_eval _ _ _ _ _ (by norm_num)]
  congr 1 <;> ring

theorem segmentMap_eval (H : ℚ) (k : ℤ) (h0 : 0 ≤ H) (h1 : H < 360)
    (hk0 : (k : ℚ) * 60 ≤ H) (hk1 : H < ((k : ℚ) + 1) * 60) :
    segmentMap H 6 0 360 = (k : ℚ) := by
  unfold segmentMap
  have hmap : map H 0 360 0 6 true = H / 60 := by
    rw [map_eval_true _ _ _ _ _ (by norm_num)]
    rw [(by ring : (H - 0) / (360 - 0) * (6 - 0) + 0 = H / 60)]
    rw [(by norm_num : min (0 : ℚ) 6 = 0), (by norm_num : max (0 : ℚ) 6 = 6)]
    exact clamp_of_mem _ _ _ (by positivity) (by linarith)
  rw [hmap]
  have hfl : ⌊H / 60⌋ = k := by
    rw [Int.floor_eq_iff]
    constructor
    · rw [le_div_iff₀ (by norm_num : (0 : ℚ) < 60)]
      exact hk0
    · push_cast
      rw [div_lt_iff₀ (by norm_num : (0 : ℚ) < 60)]
      linarith
  rw [hfl]
  have hkq0 : (-1 : ℚ) < (k : ℚ) := by linarith
  have hkq6 : (k : ℚ) < 6 := by linarith
  have hkz0 : (0 : ℤ) ≤ k := by
    have : (-1 : ℤ) < k := by exact_mod_cast hkq0
    omega
  have hkz6 : k < 6 := by exact_mod_cast hkq6
  exact euclideanModulo_of_mem _ 6 (by norm_num) (by exact_mod_cast hkz0)
    (by exact_mod_cast hkz6)

theorem cmax3_mem (R G B : ℚ) (hR0 : 0 ≤ R) (hR1 : R ≤ 1) (hG0 : 0 ≤ G) (hG1 : G ≤ 1)
    (hB0 : 0 ≤ B) (hB1 : B ≤ 1) : 0 ≤ cmax3 R G B ∧ cmax3 R G B ≤ 1 :=
  ⟨le_trans hR0 (le_max_left _ _), max_le hR1 (max_le hG1 hB1)⟩

theorem cmin3_mem (R G B : ℚ) (hR0 : 0 ≤ R) (hR1 : R ≤ 1) (hG0 : 0 ≤ G) (hG1 : G ≤ 1)
    (hB0 : 0 ≤ B) (hB1 : B ≤ 1) : 0 ≤ cmin3 R G B ∧ cmin3 R G B ≤ 1 :=
  ⟨le_min hR0 (le_min hG0 hB0), le_trans (min_le_left _ _) hR1⟩

theorem cmin3_le_cmax3 (R G B : ℚ) : cmin3 R G B ≤ cmax3 R G B :=
  le_trans (min_le_left _ _) (le_max_left _ _)

theorem light3_eval (R G B : ℚ) :
    light3 R G B = (cmax3 R G B + cmin3 R G B) / 2 := by
  unfold light3
  rw [divSafe_of_ne _ _ (by norm_num)]

theorem light3_mem (R G B : ℚ) (hR0 : 0 ≤ R) (hR1 : R ≤ 1) (hG0 : 0 ≤ G) (hG1 : G ≤ 1)
    (hB0 : 0 ≤ B) (hB1 : B ≤ 1) : 0 ≤ light3 R G B ∧ light3 R G B ≤ 1 := by
  rw [light3_eval]
  obtain ⟨hM0, hM1⟩ := cmax3_mem R G B hR0 hR1 hG0 hG1 hB0 hB1
  obtain ⟨hm0, hm1⟩ := cmin3_mem R G B hR0 hR1 hG0 hG1 hB0 hB1
  constructor <;> linarith

/-- `delta ≤ 1 - |2l - 1|`: saturation is at most 1. -/
theorem delta_le_denom (R G B : ℚ) (hR0 : 0 ≤ R) (hR1 : R ≤ 1) (hG0 : 0 ≤ G) (hG1 : G ≤ 1)
    (hB0 : 0 ≤ B) (hB1 : B ≤ 1) :
    cmax3 R G B - cmin3 R G B ≤ 1 - |2 * light3 R G B - 1| := by
  rw [light3_eval]
  obtain ⟨hM0, hM1⟩ := cmax3_mem R G B hR0 hR1 hG0 hG1 hB0 hB1
  obtain ⟨hm0, hm1⟩ := cmin3_mem R G B hR0 hR1 hG0 hG1 hB0 hB1
  rcases abs_cases (2 * ((cmax3 R G B + cmin3 R G B) / 2) - 1) with ⟨he, _⟩ | ⟨he, _⟩ <;>
    rw [he] <;> linarith

theorem sat3_mem (R G B : ℚ) (hR0 : 0 ≤ R) (hR1 : R ≤ 1) (hG0 : 0 ≤ G) (hG1 : G ≤ 1)
    (hB0 : 0 ≤ B) (hB1 : B ≤ 1) : 0 ≤ sat3 R G B ∧ sat3 R G B ≤ 1 := by
  unfold sat3
  have hd := delta_le_denom R G B hR0 hR1 hG0 hG1 hB0 hB1
  have hmm := cmin3_le_cmax3 R G B
  rcases eq_or_lt_of_le hmm with heq | hlt
  · rw [← heq]
    simp [divSafe]
  · have hden : 0 < 1 - |2 * light3 R G B - 1| := by linarith
    rw [divSafe_of_ne _ _ (ne_of_gt hden)]
    constructor
    · exact div_nonneg (by linarith) hden.le
    · rw [div_le_one hden]
      exact hd

/-- `sat3` when `delta > 0`: the chroma recomputed from it is `delta`. -/
theorem chroma_of_sat (R G B : ℚ) (hR0 : 0 ≤ R) (hR1 : R ≤ 1) (hG0 : 0 ≤ G) (hG1 : G ≤ 1)
    (hB0 : 0 ≤ B) (hB1 : B ≤ 1) (hlt : cmin3 R G B < cmax3 R G B) :
    chromaOf (100 * sat3 R G B) (100 * light3 R G B) = cmax3 R G B - cmin3 R G B := by
  unfold chromaOf sat3
  have hd := delta_le_denom R G B hR0 hR1 hG0 hG1 hB0 hB1
  have hden : 0 < 1 - |2 * light3 R G B - 1| := by linarith
  rw [divSafe_of_ne _ _ (ne_of_gt hden)]
  rw [(by ring : 2 * (100 * light3 R G B / 100) - 1 = 2 * light3 R G B - 1)]
  rw [(by ring : 100 * ((cmax3 R G B - cmin3 R G B) / (1 - |2 * light3 R G B - 1|)) / 100 =
    (cmax3 R G B - cmin3 R G B) / (1 - |2 * light3 R G B - 1|))]
  rw [mul_comm, div_mul_cancel₀ _ (ne_of_gt hden)]


/-- `RGBToHSL` on an in-range argument list, written with the
proof-layer names. -/
theorem RGBToHSL_unfold (r g b a : ℚ) (hr0 : 0 ≤ r) (hr1 : r ≤ 255) (hg0 : 0 ≤ g)
    (hg1 : g ≤ 255) (hb0 : 0 ≤ b) (hb1 : b ≤ 255) (ha0 : 0 ≤ a) (ha1 : a ≤ 1) :
    RGBToHSL [some r, some g, some b, some a] =
      HSLArray [some (60 * hue0 (r / 255) (g / 255) (b / 255)),
                some (100 * sat3 (r / 255) (g / 255) (b / 255)),
                some (100 * light3 (r / 255) (g / 255) (b / 255)), some a] := by
  simp only [RGBToHSL, List.isEmpty_cons, Bool.false_eq_true, if_false]
  rw [mapRGB_unit r g b a hr0 hr1 hg0 hg1 hb0 hb1 ha0 ha1]
  have h360 : ∀ v : ℚ, map v 0 6 0 360 false = 60 * v := fun v => by
    rw [map_eval _ _ _ _ _ (by norm_num)]
    ring
  have h100 : ∀ v : ℚ, map v 0 1 0 100 false = 100 * v := fun v => by
    rw [map_eval _ _ _ _ _ (by norm_num)]
    ring
  rw [h360, h100, h100]
  rfl

theorem hslToRGB_unfold_start (H S L a : ℚ) (hH0 : 0 ≤ H) (hH1 : H < 360) (hS0 : 0 ≤ S)
    (hS1 : S ≤ 100) (hL0 : 0 ≤ L) (hL1 : L ≤ 100) (ha0 : 0 ≤ a) (ha1 : a ≤ 1) :
    HSLToRGB (caToList ⟨H, S, L, a⟩) =
      RGBArray [
        some (map ((if segmentMap H 6 0 360 = 0 then
            (chromaOf S L, (if H = 0 then 0
              else chromaOf S L * (1 - |jsRem (H / (360 / 6)) 2 - 1|)), (0 : ℚ))
          else if segmentMap H 6 0 360 = 1 then
            ((if H = 0 then 0 else chromaOf S L * (1 - |jsRem (H / (360 / 6)) 2 - 1|)),
              chromaOf S L, 0)
          else if segmentMap H 6 0 360 = 2 then
            (0, chromaOf S L, (if H = 0 then 0
              else chromaOf S L * (1 - |jsRem (H / (360 / 6)) 2 - 1|)))
          else if segmentMap H 6 0 360 = 3 then
            (0, (if H = 0 then 0 else chromaOf S L * (1 - |jsRem (H / (360 / 6)) 2 - 1|)),
              chromaOf S L)
          else if segmentMap H 6 0 360 = 4 then
            ((if H = 0 then 0 else chromaOf S L * (1 - |jsRem (H / (360 / 6)) 2 - 1|)), 0,
              chromaOf S L)
          else if segmentMap H 6 0 360 = 5 then
            (chromaOf S L, 0, (if H = 0 then 0
              else chromaOf S L * (1 - |jsRem (H / (360 / 6)) 2 - 1|)))
          else (0, 0, 0)).1 + offsetOf S L) 0 1 0 255 false),
        some (map ((if segmentMap H 6 0 360 = 0 then
            (chromaOf S L, (if H = 0 then 0
              else chromaOf S L * (1 - |jsRem (H / (360 / 6)) 2 - 1|)), (0 : ℚ))
          else if segmentMap H 6 0 360 = 1 then
            ((if H = 0 then 0 else chromaOf S L * (1 - |jsRem (H / (360 / 6)) 2 - 1|)),
              chromaOf S L, 0)
          else if segmentMap H 6 0 360 = 2 then
            (0, chromaOf S L, (if H = 0 then 0
              else chromaOf S L * (1 - |jsRem (H / (360 / 6)) 2 - 1|)))
          else if segmentMap H 6 0 360 = 3 then
            (0, (if H = 0 then 0 else chromaOf S L * (1 - |jsRem (H / (360 / 6)) 2 - 1|)),
              chromaOf S L)
          else if segmentMap H 6 0 360 = 4 then
            ((if H = 0 then 0 else chromaOf S L * (1 - |jsRem (H / (360 / 6)) 2 - 1|)), 0,
              chromaOf S L)
          else if segmentMap H 6 0 360 = 5 then
            (chromaOf S L, 0, (if H = 0 then 0
              else chromaOf S L * (1 - |jsRem (H / (360 / 6)) 2 - 1|)))
          else (0, 0, 0)).2.1 + offsetOf S L) 0 1 0 255 false),
        some (map ((if segmentMap H 6 0 360 = 0 then
            (chromaOf S L, (if H = 0 then 0
              else chromaOf S L * (1 - |jsRem (H / (360 / 6)) 2 - 1|)), (0 : ℚ))
          else if segmentMap H 6 0 360 = 1 then
            ((if H = 0 then 0 else chromaOf S L * (1 - |jsRem (H / (360 / 6)) 2 - 1|)),
              chromaOf S L, 0)
          else if segmentMap H 6 0 360 = 2 then
            (0, chromaOf S L, (if H = 0 then 0
              else chromaOf S L * (1 - |jsRem (H / (360 / 6)) 2 - 1|)))
          else if segmentMap H 6 0 360 = 3 then
            (0, (if H = 0 then 0 else chromaOf S L * (1 - |jsRem (H / (360 / 6)) 2 - 1|)),
              chromaOf S L)
          else if segmentMap H 6 0 360 = 4 then
            ((if H = 0 then 0 else chromaOf S L * (1 - |jsRem (H / (360 / 6)) 2 - 1|)), 0,
              chromaOf S L)
          else if segmentMap H 6 0 360 = 5 then
            (chromaOf S L, 0, (if H = 0 then 0
              else chromaOf S L * (1 - |jsRem (H / (360 / 6)) 2 - 1|)))
          else (0, 0, 0)).2.2 + offsetOf S L) 0 1 0 255 false),
        some a] := by
  simp only [HSLToRGB, caToList, List.isEmpty_cons, Bool.false_eq_true, if_false]
  rw [HSLArray_some, euclideanModulo_of_mem H 360 (by norm_num) hH0 hH1,
    clamp_of_mem S 0 100 hS0 hS1, clamp_of_mem L 0 100 hL0 hL1, clamp_of_mem a 0 1 ha0 ha1]
  rw [normalize_unit S 100 hS0 hS1 (by norm_num), normalize_unit L 100 hL0 hL1 (by norm_num)]
  rfl

theorem HSLToRGB_seg0 (H S L a : ℚ) (hH0 : 0 ≤ H) (hH1 : H < 60) (hS0 : 0 ≤ S)
    (hS1 : S ≤ 100) (hL0 : 0 ≤ L) (hL1 : L ≤ 100) (ha0 : 0 ≤ a) (ha1 : a ≤ 1) :
    HSLToRGB (caToList ⟨H, S, L, a⟩) =
      RGBArray [some ((chromaOf S L + offsetOf S L) * 255),
                some ((chromaOf S L * (H / 60) + offsetOf S L) * 255),
                some (((0 : ℚ) + offsetOf S L) * 255), some a] := by
  rw [hslToRGB_unfold_start H S L a (by linarith) (by linarith) hS0 hS1 hL0 hL1 ha0 ha1]
  rw [segmentMap_eval H 0 (by linarith) (by linarith) (by push_cast; linarith)
    (by push_cast; linarith)]
  rw [(by norm_num : ((0 : ℤ) : ℚ) = (0 : ℚ))]
  rw [if_pos rfl]
  have hx : (if H = 0 then 0
      else chromaOf S L * (1 - |jsRem (H / (360 / 6)) 2 - 1|)) = chromaOf S L * (H / 60) := by
    rcases eq_or_ne H 0 with rfl | hne
    · simp
    · rw [if_neg hne, (by norm_num : (360 : ℚ) / 6 = 60),
        jsRem_small (H / 60) 2 (by norm_num) (by positivity) (by linarith),
        abs_of_nonpos (by linarith : H / 60 - 1 ≤ 0)]
      ring
  rw [hx]
  have hmap : ∀ v : ℚ, map v 0 1 0 255 false = v * 255 := fun v => by
    rw [map_eval _ _ _ _ _ (by norm_num)]
    ring
  rw [hmap, hmap, hmap]

theorem HSLToRGB_seg1 (H S L a : ℚ) (hH0 : 60 ≤ H) (hH1 : H < 120) (hS0 : 0 ≤ S)
    (hS1 : S ≤ 100) (hL0 : 0 ≤ L) (hL1 : L ≤ 100) (ha0 : 0 ≤ a) (ha1 : a ≤ 1) :
    HSLToRGB (caToList ⟨H, S, L, a⟩) =
      RGBArray [some ((chromaOf S L * (2 - H / 60) + offsetOf S L) * 255),
                some ((chromaOf S L + offsetOf S L) * 255),
                some (((0 : ℚ) + offsetOf S L) * 255), some a] := by
  rw [hslToRGB_unfold_start H S L a (by linarith) (by linarith) hS0 hS1 hL0 hL1 ha0 ha1]
  rw [segmentMap_eval H 1 (by linarith) (by linarith) (by push_cast; linarith)
    (by push_cast; linarith)]
  rw [(by norm_num : ((1 : ℤ) : ℚ) = (1 : ℚ))]
  rw [if_neg (by norm_num), if_pos rfl]
  have hx : (if H = 0 then 0
      else chromaOf S L * (1 - |jsRem (H / (360 / 6)) 2 - 1|)) = chromaOf S L * (2 - H / 60) := by
    rw [if_neg (by intro h0; rw [h0] at hH0; linarith : ¬ H = 0),
      (by norm_num : (360 : ℚ) / 6 = 60),
      jsRem_small (H / 60) 2 (by norm_num) (by positivity) (by linarith),
      abs_of_nonneg (by linarith : (0 : ℚ) ≤ H / 60 - 1)]
    ring
  rw [hx]
  have hmap : ∀ v : ℚ, map v 0 1 0 255 false = v * 255 := fun v => by
    rw [map_eval _ _ _ _ _ (by norm_num)]
    ring
  rw [hmap, hmap, hmap]

theorem HSLToRGB_seg2 (H S L a : ℚ) (hH0 : 120 ≤ H) (hH1 : H < 180) (hS0 : 0 ≤ S)
    (hS1 : S ≤ 100) (hL0 : 0 ≤ L) (hL1 : L ≤ 100) (ha0 : 0 ≤ a) (ha1 : a ≤ 1) :
    HSLToRGB (caToList ⟨H, S, L, a⟩) =
      RGBArray [some (((0 : ℚ) + offsetOf S L) * 255),
                some ((chromaOf S L + offsetOf S L) * 255),
                some ((chromaOf S L * (H / 60 - 2) + offsetOf S L) * 255), some a] := by
  rw [hslToRGB_unfold_start H S L a (by linarith) (by linarith) hS0 hS1 hL0 hL1 ha0 ha1]
  rw [segmentMap_eval H 2 (by linarith) (by linarith) (by push_cast; linarith)
    (by push_cast; linarith)]
  rw [(by norm_num : ((2 : ℤ) : ℚ) = (2 : ℚ))]
  rw [if_neg (by norm_num), if_neg (by norm_num), if_pos rfl]
  have hx : (if H = 0 then 0
      else chromaOf S L * (1 - |jsRem (H / (360 / 6)) 2 - 1|)) = chromaOf S L * (H / 60 - 2) := by
    rw [if_neg (by intro h0; rw [h0] at hH0; linarith : ¬ H = 0),
      (by norm_num : (360 : ℚ) / 6 = 60),
      jsRem_eval (H / 60) 2 1 (by norm_num) (by push_cast; linarith) (by push_cast; linarith)
        (by positivity),
      abs_of_nonpos (by linarith : H / 60 - 2 * (1 : ℤ) - 1 ≤ 0)]
    push_cast
    ring
  rw [hx]
  have hmap : ∀ v : ℚ, map v 0 1 0 255 false = v * 255 := fun v => by
    rw [map_eval _ _ _ _ _ (by norm_num)]
    ring
  rw [hmap, hmap, hmap]

theorem HSLToRGB_seg3 (H S L a : ℚ) (hH0 : 180 ≤ H) (hH1 : H < 240) (hS0 : 0 ≤ S)
    (hS1 : S ≤ 100) (hL0 : 0 ≤ L) (hL1 : L ≤ 100) (ha0 : 0 ≤ a) (ha1 : a ≤ 1) :
    HSLToRGB (caToList ⟨H, S, L, a⟩) =
      RGBArray [some (((0 : ℚ) + offsetOf S L) * 255),
                some ((chromaOf S L * (4 - H / 60) + offsetOf S L) * 255),
                some ((chromaOf S L + offsetOf S L) * 255), some a] := by
  rw [hslToRGB_unfold_start H S L a (by linarith) (by linarith) hS0 hS1 hL0 hL1 ha0 ha1]
  rw [segmentMap_eval H 3 (by linarith) (by linarith) (by push_cast; linarith)
    (by push_cast; linarith)]
  rw [(by norm_num : ((3 : ℤ) : ℚ) = (3 : ℚ))]
  rw [if_neg (by norm_num), if_neg (by norm_num), if_neg (by norm_num), if_pos rfl]
  have hx : (if H = 0 then 0
      else chromaOf S L * (1 - |jsRem (H / (360 / 6)) 2 - 1|)) = chromaOf S L * (4 - H / 60) := by
    rw [if_neg (by intro h0; rw [h0] at hH0; linarith : ¬ H = 0),
      (by norm_num : (360 : ℚ) / 6 = 60),
      jsRem_eval (H / 60) 2 1 (by norm_num) (by push_cast; linarith) (by push_cast; linarith)
        (by linarith),
      abs_of_nonneg (by push_cast; linarith : (0 : ℚ) ≤ H / 60 - 2 * (1 : ℤ) - 1)]
    push_cast
    ring
  rw [hx]
  have hmap : ∀ v : ℚ, map v 0 1 0 255 false = v * 255 := fun v => by
    rw [map_eval _ _ _ _ _ (by norm_num)]
    ring
  rw [hmap, hmap, hmap]

theorem HSLToRGB_seg4 (H S L a : ℚ) (hH0 : 240 ≤ H) (hH1 : H < 300) (hS0 : 0 ≤ S)
    (hS1 : S ≤ 100) (hL0 : 0 ≤ L) (hL1 : L ≤ 100) (ha0 : 0 ≤ a) (ha1 : a ≤ 1) :
    HSLToRGB (caToList ⟨H, S, L, a⟩) =
      RGBArray [some ((chromaOf S L * (H / 60 - 4) + offsetOf S L) * 255),
                some (((0 : ℚ) + offsetOf S L) * 255),
                some ((chromaOf S L + offsetOf S L) * 255), some a] := by
  rw [hslToRGB_unfold_start H S L a (by linarith) (by linarith) hS0 hS1 hL0 hL1 ha0 ha1]
  rw [segmentMap_eval H 4 (by linarith) (by linarith) (by push_cast; linarith)
    (by push_cast; linarith)]
  rw [(by norm_num : ((4 : ℤ) : ℚ) = (4 : ℚ))]
  rw [if_neg (by norm_num), if_neg (by norm_num), if_neg (by norm_num), if_neg (by norm_num), if_pos rfl]
  have hx : (if H = 0 then 0
      else chromaOf S L * (1 - |jsRem (H / (360 / 6)) 2 - 1|)) = chromaOf S L * (H / 60 - 4) := by
    rw [if_neg (by intro h0; rw [h0] at hH0; linarith : ¬ H = 0),
      (by norm_num : (360 : ℚ) / 6 = 60),
      jsRem_eval (H / 60) 2 2 (by norm_num) (by push_cast; linarith) (by push_cast; linarith)
        (by linarith),
      abs_of_nonpos (by push_cast; linarith : H / 60 - 2 * (2 : ℤ) - 1 ≤ 0)]
    push_cast
    ring
  rw [hx]
  have hmap : ∀ v : ℚ, map v 0 1 0 255 false = v * 255 := fun v => by
    rw [map_eval _ _ _ _ _ (by norm_num)]
    ring
  rw [hmap, hmap, hmap]

theorem HSLToRGB_seg5 (H S L a : ℚ) (hH0 : 300 ≤ H) (hH1 : H < 360) (hS0 : 0 ≤ S)
    (hS1 : S ≤ 100) (hL0 : 0 ≤ L) (hL1 : L ≤ 100) (ha0 : 0 ≤ a) (ha1 : a ≤ 1) :
    HSLToRGB (caToList ⟨H, S, L, a⟩) =
      RGBArray [some ((chromaOf S L + offsetOf S L) * 255),
                some (((0 : ℚ) + offsetOf S L) * 255),
                some ((chromaOf S L * (6 - H / 60) + offsetOf S L) * 255), some a] := by
  rw [hslToRGB_unfold_start H S L a (by linarith) (by linarith) hS0 hS1 hL0 hL1 ha0 ha1]
  rw [segmentMap_eval H 5 (by linarith) (by linarith) (by push_cast; linarith)
    (by push_cast; linarith)]
  rw [(by norm_num : ((5 : ℤ) : ℚ) = (5 : ℚ))]
  rw [if_neg (by norm_num), if_neg (by norm_num), if_neg (by norm_num), if_neg (by norm_num), if_neg (by norm_num), if_pos rfl]
  have hx : (if H = 0 then 0
      else chromaOf S L * (1 - |jsRem (H / (360 / 6)) 2 - 1|)) = chromaOf S L * (6 - H / 60) := by
    rw [if_neg (by intro h0; rw [h0] at hH0; linarith : ¬ H = 0),
      (by norm_num : (360 : ℚ) / 6 = 60),
      jsRem_eval (H / 60) 2 2 (by norm_num) (by push_cast; linarith) (by push_cast; linarith)
        (by linarith),
      abs_of_nonneg (by push_cast; linarith : (0 : ℚ) ≤ H / 60 - 2 * (2 : ℤ) - 1)]
    push_cast
    ring
  rw [hx]
  have hmap : ∀ v : ℚ, map v 0 1 0 255 false = v * 255 := fun v => by
    rw [map_eval _ _ _ _ _ (by norm_num)]
    ring
  rw [hmap, hmap, hmap]

theorem offset_of_sat (R G B : ℚ) (hR0 : 0 ≤ R) (hR1 : R ≤ 1) (hG0 : 0 ≤ G) (hG1 : G ≤ 1)
    (hB0 : 0 ≤ B) (hB1 : B ≤ 1) (hlt : cmin3 R G B < cmax3 R G B) :
    offsetOf (100 * sat3 R G B) (100 * light3 R G B) = cmin3 R G B := by
  unfold offsetOf
  rw [chroma_of_sat R G B hR0 hR1 hG0 hG1 hB0 hB1 hlt]
  rw [if_neg (sub_pos.mpr hlt).ne']
  rw [(by ring : 100 * light3 R G B / 100 = light3 R G B), light3_eval]
  ring

theorem RGBArray_eq_of {X Y Z A r g b a : ℚ} (hX : X = r) (hY : Y = g) (hZ : Z = b)
    (hA : A = a) (hr0 : 0 ≤ r) (hr1 : r ≤ 255) (hg0 : 0 ≤ g) (hg1 : g ≤ 255) (hb0 : 0 ≤ b)
    (hb1 : b ≤ 255) (ha0 : 0 ≤ a) (ha1 : a ≤ 1) :
    RGBArray [some X, some Y, some Z, some A] = ⟨r, g, b, a⟩ := by
  subst hX hY hZ hA
  exact RGBArray_of_mem _ _ _ _ hr0 hr1 hg0 hg1 hb0 hb1 ha0 ha1

theorem jsRound_close (x : ℚ) : |((jsRound x : ℤ) : ℚ) - x| ≤ 1 := by
  unfold jsRound
  have h1 := Int.floor_le (x + 1 / 2)
  have h2 := Int.sub_one_lt_floor (x + 1 / 2)
  rw [abs_le]
  constructor <;> linarith

set_option maxHeartbeats 4000000 in
/-- The RGB→HSL→RGB round trip of the source is exact on in-range
rational inputs: no error at all is introduced (the claimed ±1
tolerance then holds trivially after rounding). -/
theorem rgb_hsl_roundtrip_exact (r g b a : ℚ) (hr0 : 0 ≤ r) (hr1 : r ≤ 255) (hg0 : 0 ≤ g)
    (hg1 : g ≤ 255) (hb0 : 0 ≤ b) (hb1 : b ≤ 255) (ha0 : 0 ≤ a) (ha1 : a ≤ 1) :
    HSLToRGB (caToList (RGBToHSL [some r, some g, some b, some a])) = ⟨r, g, b, a⟩ := by
  have hR0 : (0 : ℚ) ≤ r / 255 := by linarith
  have hR1 : r / 255 ≤ (1 : ℚ) := by linarith
  have hG0 : (0 : ℚ) ≤ g / 255 := by linarith
  have hG1 : g / 255 ≤ (1 : ℚ) := by linarith
  have hB0 : (0 : ℚ) ≤ b / 255 := by linarith
  have hB1 : b / 255 ≤ (1 : ℚ) := by linarith
  have hsm := sat3_mem (r / 255) (g / 255) (b / 255) hR0 hR1 hG0 hG1 hB0 hB1
  have hlm := light3_mem (r / 255) (g / 255) (b / 255) hR0 hR1 hG0 hG1 hB0 hB1
  have hS0' : (0 : ℚ) ≤ 100 * sat3 (r / 255) (g / 255) (b / 255) := by linarith [hsm.1]
  have hS1' : 100 * sat3 (r / 255) (g / 255) (b / 255) ≤ 100 := by linarith [hsm.2]
  have hL0' : (0 : ℚ) ≤ 100 * light3 (r / 255) (g / 255) (b / 255) := by linarith [hlm.1]
  have hL1' : 100 * light3 (r / 255) (g / 255) (b / 255) ≤ 100 := by linarith [hlm.2]
  rw [RGBToHSL_unfold r g b a hr0 hr1 hg0 hg1 hb0 hb1 ha0 ha1, HSLArray_some,
    clamp_of_mem _ 0 100 hS0' hS1', clamp_of_mem _ 0 100 hL0' hL1',
    clamp_of_mem a 0 1 ha0 ha1]
  by_cases hC1 : g ≤ r ∧ b ≤ r
  · obtain ⟨hgle, hble⟩ := hC1
    rcases le_or_lt b g with hbg | hgb
    · rcases eq_or_lt_of_le (hbg.trans hgle) with hbr | hbr
      · -- r = g = b: the achromatic leaf.
        have hgr : r = g := (le_antisymm hgle (hbr ▸ hbg)).symm
        subst hgr
        have hbr2 : r = b := hbr.symm
        subst hbr2
        have hMA : cmax3 (r / 255) (r / 255) (r / 255) = r / 255 := by
          unfold cmax3
          rw [max_self, max_self]
        have hmA : cmin3 (r / 255) (r / 255) (r / 255) = r / 255 := by
          unfold cmin3
          rw [min_self, min_self]
        have hhueA : hue0 (r / 255) (r / 255) (r / 255) = 0 := by
          unfold hue0
          rw [hMA, hmA, if_pos rfl, sub_self]
          rw [(by simp [divSafe] : divSafe (0 : ℚ) 0 = 0)]
          exact jsRem_small 0 6 (by norm_num) le_rfl (by norm_num)
        have hsatA : sat3 (r / 255) (r / 255) (r / 255) = 0 := by
          unfold sat3
          rw [hMA, hmA, sub_self]
          simp [divSafe]
        have hlightA : light3 (r / 255) (r / 255) (r / 255) = r / 255 := by
          rw [light3_eval, hMA, hmA]
          ring
        rw [hhueA, hsatA, hlightA, mul_zero, mul_zero,
          euclideanModulo_of_mem 0 360 (by norm_num) le_rfl (by norm_num)]
        rw [HSLToRGB_seg0 0 0 (100 * (r / 255)) a le_rfl (by norm_num) le_rfl (by norm_num)
          (by linarith) (by linarith) ha0 ha1]
        have hcA : chromaOf 0 (100 * (r / 255)) = 0 := by
          unfold chromaOf
          ring
        have hoffA : offsetOf 0 (100 * (r / 255)) = 100 * (r / 255) / 100 := by
          unfold offsetOf
          rw [if_pos hcA]
        rw [hcA, hoffA]
        refine RGBArray_eq_of ?_ ?_ ?_ rfl hr0 hr1 hr0 hr1 hr0 hr1 ha0 ha1 <;> ring
      · rcases eq_or_lt_of_le hgle with hgr | hgr
        · -- g = r, b < r: segment 1 at its left edge (hue slot 60).
          have hgr2 : r = g := hgr.symm
          subst hgr2
          have hM : cmax3 (r / 255) (r / 255) (b / 255) = r / 255 := by
            unfold cmax3
            rw [max_eq_left (by linarith : (b : ℚ) / 255 ≤ r / 255), max_self]
          have hm : cmin3 (r / 255) (r / 255) (b / 255) = b / 255 := by
            unfold cmin3
            rw [min_eq_right (by linarith : (b : ℚ) / 255 ≤ r / 255),
              min_eq_right (by linarith : (b : ℚ) / 255 ≤ r / 255)]
          have hlt : cmin3 (r / 255) (r / 255) (b / 255) < cmax3 (r / 255) (r / 255) (b / 255) := by
            rw [hM, hm]
            linarith
          have hpos : (0 : ℚ) < r / 255 - b / 255 := by linarith
          have hhue : hue0 (r / 255) (r / 255) (b / 255) = 1 := by
            unfold hue0
            rw [hM, hm, if_pos rfl, divSafe_of_ne _ _ hpos.ne', div_self hpos.ne']
            exact jsRem_small 1 6 (by norm_num) (by norm_num) (by norm_num)
          rw [hhue, euclideanModulo_of_mem (60 * 1) 360 (by norm_num) (by norm_num) (by norm_num)]
          rw [HSLToRGB_seg1 (60 * 1) _ _ _ (by norm_num) (by norm_num) hS0' hS1' hL0' hL1' ha0 ha1]
          have hc := chroma_of_sat (r / 255) (r / 255) (b / 255) hR0 hR1 hG0 hG1 hB0 hB1 hlt
          rw [hM, hm] at hc
          have hoff := offset_of_sat (r / 255) (r / 255) (b / 255) hR0 hR1 hG0 hG1 hB0 hB1 hlt
          rw [hm] at hoff
          rw [hc, hoff]
          refine RGBArray_eq_of ?_ ?_ ?_ rfl hr0 hr1 hr0 hr1 hb0 hb1 ha0 ha1 <;> ring
        · -- b ≤ g < r: segment 0.
          have hM : cmax3 (r / 255) (g / 255) (b / 255) = r / 255 := by
            unfold cmax3
            rw [max_eq_left (max_le (by linarith) (by linarith))]
          have hm : cmin3 (r / 255) (g / 255) (b / 255) = b / 255 := by
            unfold cmin3
            rw [min_eq_right (by linarith : (b : ℚ) / 255 ≤ g / 255),
              min_eq_right (by linarith : (b : ℚ) / 255 ≤ r / 255)]
          have hlt : cmin3 (r / 255) (g / 255) (b / 255) < cmax3 (r / 255) (g / 255) (b / 255) := by
            rw [hM, hm]
            linarith
          have hpos : (0 : ℚ) < r / 255 - b / 255 := by linarith
          have hq0 : (0 : ℚ) ≤ (g / 255 - b / 255) / (r / 255 - b / 255) :=
            div_nonneg (by linarith) hpos.le
          have hq1 : (g / 255 - b / 255) / (r / 255 - b / 255) < 1 :=
            (div_lt_one hpos).mpr (by linarith)
          have hhue : hue0 (r / 255) (g / 255) (b / 255) =
              (g / 255 - b / 255) / (r / 255 - b / 255) := by
            unfold hue0
            rw [hM, hm, if_pos rfl, divSafe_of_ne _ _ hpos.ne']
            exact jsRem_small _ 6 (by norm_num) hq0 (by linarith)
          have hEm1 : (0 : ℚ) ≤ 60 * ((g / 255 - b / 255) / (r / 255 - b / 255)) := by linarith
          have hEm2 : 60 * ((g / 255 - b / 255) / (r / 255 - b / 255)) < 360 := by linarith
          rw [hhue, euclideanModulo_of_mem _ 360 (by norm_num) hEm1 hEm2]
          have hsg1 : (0 : ℚ) ≤ 60 * ((g / 255 - b / 255) / (r / 255 - b / 255)) := hEm1
          have hsg2 : 60 * ((g / 255 - b / 255) / (r / 255 - b / 255)) < 60 := by linarith
          rw [HSLToRGB_seg0 _ _ _ _ hsg1 hsg2 hS0' hS1' hL0' hL1' ha0 ha1]
          have hc := chroma_of_sat (r / 255) (g / 255) (b / 255) hR0 hR1 hG0 hG1 hB0 hB1 hlt
          rw [hM, hm] at hc
          have hoff := offset_of_sat (r / 255) (g / 255) (b / 255) hR0 hR1 hG0 hG1 hB0 hB1 hlt
          rw [hm] at hoff
          rw [hc, hoff]
          refine RGBArray_eq_of ?_ ?_ ?_ rfl hr0 hr1 hg0 hg1 hb0 hb1 ha0 ha1
          · ring
          · rw [(by ring : (60 : ℚ) * ((g / 255 - b / 255) / (r / 255 - b / 255)) / 60 =
              (g / 255 - b / 255) / (r / 255 - b / 255)),
              mul_comm (r / 255 - b / 255), div_mul_cancel₀ _ hpos.ne']
            ring
          · ring
    · -- g < b ≤ r: segment 5 (negative remainder wraps by +360).
      have hM : cmax3 (r / 255) (g / 255) (b / 255) = r / 255 := by
        unfold cmax3
        rw [max_eq_left (max_le (by linarith) (by linarith))]
      have hm : cmin3 (r / 255) (g / 255) (b / 255) = g / 255 := by
        unfold cmin3
        rw [min_eq_left (by linarith : (g : ℚ) / 255 ≤ b / 255),
          min_eq_right (by linarith : (g : ℚ) / 255 ≤ r / 255)]
      have hlt : cmin3 (r / 255) (g / 255) (b / 255) < cmax3 (r / 255) (g / 255) (b / 255) := by
        rw [hM, hm]
        linarith
      have hpos : (0 : ℚ) < r / 255 - g / 255 := by linarith
      have hqm : (-1 : ℚ) ≤ (g / 255 - b / 255) / (r / 255 - g / 255) :=
        (le_div_iff₀ hpos).mpr (by linarith)
      have hqneg : (g / 255 - b / 255) / (r / 255 - g / 255) < 0 :=
        div_neg_of_neg_of_pos (by linarith) hpos
      have hhue : hue0 (r / 255) (g / 255) (b / 255) =
          (g / 255 - b / 255) / (r / 255 - g / 255) := by
        unfold hue0
        rw [hM, hm, if_pos rfl, divSafe_of_ne _ _ hpos.ne']
        exact jsRem_small_neg _ 6 (by norm_num) (by linarith) hqneg
      have hEm1 : (-360 : ℚ) < 60 * ((g / 255 - b / 255) / (r / 255 - g / 255)) := by linarith
      have hEm2 : 60 * ((g / 255 - b / 255) / (r / 255 - g / 255)) < 0 := by linarith
      rw [hhue, euclideanModulo_of_neg _ 360 (by norm_num) hEm1 hEm2]
      have hsg1 : (300 : ℚ) ≤ 60 * ((g / 255 - b / 255) / (r / 255 - g / 255)) + 360 := by
        linarith
      have hsg2 : 60 * ((g / 255 - b / 255) / (r / 255 - g / 255)) + 360 < 360 := by linarith
      rw [HSLToRGB_seg5 _ _ _ _ hsg1 hsg2 hS0' hS1' hL0' hL1' ha0 ha1]
      have hc := chroma_of_sat (r / 255) (g / 255) (b / 255) hR0 hR1 hG0 hG1 hB0 hB1 hlt
      rw [hM, hm] at hc
      have hoff := offset_of_sat (r / 255) (g / 255) (b / 255) hR0 hR1 hG0 hG1 hB0 hB1 hlt
      rw [hm] at hoff
      rw [hc, hoff]
      refine RGBArray_eq_of ?_ ?_ ?_ rfl hr0 hr1 hg0 hg1 hb0 hb1 ha0 ha1
      · ring
      · ring
      · rw [(by ring : (6 : ℚ) -
          (60 * ((g / 255 - b / 255) / (r / 255 - g / 255)) + 360) / 60 =
          -((g / 255 - b / 255) / (r / 255 - g / 255))),
          mul_neg, mul_comm (r / 255 - g / 255), div_mul_cancel₀ _ hpos.ne']
        ring
  · push_neg at hC1
    by_cases hC2 : r ≤ g ∧ b ≤ g
    · obtain ⟨hrg, hbg⟩ := hC2
      have hrg' : r < g := by
        by_contra hcon
        push_neg at hcon
        have := hC1 hcon
        linarith
      rcases eq_or_lt_of_le hbg with hbgeq | hblt
      · -- b = g, r < g: segment 3 at its left edge (hue slot 180).
        have hbg2 : g = b := hbgeq.symm
        subst hbg2
        have hM : cmax3 (r / 255) (g / 255) (g / 255) = g / 255 := by
          unfold cmax3
          rw [max_self, max_eq_right (by linarith : (r : ℚ) / 255 ≤ g / 255)]
        have hm : cmin3 (r / 255) (g / 255) (g / 255) = r / 255 := by
          unfold cmin3
          rw [min_self, min_eq_left (by linarith : (r : ℚ) / 255 ≤ g / 255)]
        have hlt : cmin3 (r / 255) (g / 255) (g / 255) < cmax3 (r / 255) (g / 255) (g / 255) := by
          rw [hM, hm]
          linarith
        have hpos : (0 : ℚ) < g / 255 - r / 255 := by linarith
        have hhue : hue0 (r / 255) (g / 255) (g / 255) = 3 := by
          unfold hue0
          rw [hM, hm, if_neg (by intro h; linarith : ¬ (g : ℚ) / 255 = r / 255), if_pos rfl,
            divSafe_of_ne _ _ hpos.ne', div_self hpos.ne']
          norm_num
        rw [hhue, euclideanModulo_of_mem (60 * 3) 360 (by norm_num) (by norm_num) (by norm_num)]
        rw [HSLToRGB_seg3 (60 * 3) _ _ _ (by norm_num) (by norm_num) hS0' hS1' hL0' hL1' ha0 ha1]
        have hc := chroma_of_sat (r / 255) (g / 255) (g / 255) hR0 hR1 hG0 hG1 hB0 hB1 hlt
        rw [hM, hm] at hc
        have hoff := offset_of_sat (r / 255) (g / 255) (g / 255) hR0 hR1 hG0 hG1 hB0 hB1 hlt
        rw [hm] at hoff
        rw [hc, hoff]
        refine RGBArray_eq_of ?_ ?_ ?_ rfl hr0 hr1 hg0 hg1 hg0 hg1 ha0 ha1 <;> ring
      · rcases le_or_lt r b with hrb | hbr
        · -- r ≤ b < g: segment 2.
          have hM : cmax3 (r / 255) (g / 255) (b / 255) = g / 255 := by
            unfold cmax3
            rw [max_eq_left (by linarith : (b : ℚ) / 255 ≤ g / 255),
              max_eq_right (by linarith : (r : ℚ) / 255 ≤ g / 255)]
          have hm : cmin3 (r / 255) (g / 255) (b / 255) = r / 255 := by
            unfold cmin3
            rw [min_eq_right (by linarith : (b : ℚ) / 255 ≤ g / 255),
              min_eq_left (by linarith : (r : ℚ) / 255 ≤ b / 255)]
          have hlt : cmin3 (r / 255) (g / 255) (b / 255) <
              cmax3 (r / 255) (g / 255) (b / 255) := by
            rw [hM, hm]
            linarith
          have hpos : (0 : ℚ) < g / 255 - r / 255 := by linarith
          have hq0 : (0 : ℚ) ≤ (b / 255 - r / 255) / (g / 255 - r / 255) :=
            div_nonneg (by linarith) hpos.le
          have hq1 : (b / 255 - r / 255) / (g / 255 - r / 255) < 1 :=
            (div_lt_one hpos).mpr (by linarith)
          have hhue : hue0 (r / 255) (g / 255) (b / 255) =
              (b / 255 - r / 255) / (g / 255 - r / 255) + 2 := by
            unfold hue0
            rw [hM, hm, if_neg (by intro h; linarith : ¬ (g : ℚ) / 255 = r / 255), if_pos rfl,
              divSafe_of_ne _ _ hpos.ne']
          have hEm1 : (0 : ℚ) ≤ 60 * ((b / 255 - r / 255) / (g / 255 - r / 255) + 2) := by
            linarith
          have hEm2 : 60 * ((b / 255 - r / 255) / (g / 255 - r / 255) + 2) < 360 := by linarith
          rw [hhue, euclideanModulo_of_mem _ 360 (by norm_num) hEm1 hEm2]
          have hsg1 : (120 : ℚ) ≤ 60 * ((b / 255 - r / 255) / (g / 255 - r / 255) + 2) := by
            linarith
          have hsg2 : 60 * ((b / 255 - r / 255) / (g / 255 - r / 255) + 2) < 180 := by linarith
          rw [HSLToRGB_seg2 _ _ _ _ hsg1 hsg2 hS0' hS1' hL0' hL1' ha0 ha1]
          have hc := chroma_of_sat (r / 255) (g / 255) (b / 255) hR0 hR1 hG0 hG1 hB0 hB1 hlt
          rw [hM, hm] at hc
          have hoff := offset_of_sat (r / 255) (g / 255) (b / 255) hR0 hR1 hG0 hG1 hB0 hB1 hlt
          rw [hm] at hoff
          rw [hc, hoff]
          refine RGBArray_eq_of ?_ ?_ ?_ rfl hr0 hr1 hg0 hg1 hb0 hb1 ha0 ha1
          · ring
          · ring
          · rw [(by ring : (60 : ℚ) * ((b / 255 - r / 255) / (g / 255 - r / 255) + 2) / 60 - 2 =
              (b / 255 - r / 255) / (g / 255 - r / 255)),
              mul_comm (g / 255 - r / 255), div_mul_cancel₀ _ hpos.ne']
            ring
        · -- b < r < g: segment 1.
          have hM : cmax3 (r / 255) (g / 255) (b / 255) = g / 255 := by
            unfold cmax3
            rw [max_eq_left (by linarith : (b : ℚ) / 255 ≤ g / 255),
              max_eq_right (by linarith : (r : ℚ) / 255 ≤ g / 255)]
          have hm : cmin3 (r / 255) (g / 255) (b / 255) = b / 255 := by
            unfold cmin3
            rw [min_eq_right (by linarith : (b : ℚ) / 255 ≤ g / 255),
              min_eq_right (by linarith : (b : ℚ) / 255 ≤ r / 255)]
          have hlt : cmin3 (r / 255) (g / 255) (b / 255) <
              cmax3 (r / 255) (g / 255) (b / 255) := by
            rw [hM, hm]
            linarith
          have hpos : (0 : ℚ) < g / 255 - b / 255 := by linarith
          have hqm : (-1 : ℚ) ≤ (b / 255 - r / 255) / (g / 255 - b / 255) :=
            (le_div_iff₀ hpos).mpr (by linarith)
          have hqneg : (b / 255 - r / 255) / (g / 255 - b / 255) < 0 :=
            div_neg_of_neg_of_pos (by linarith) hpos
          have hhue : hue0 (r / 255) (g / 255) (b / 255) =
              (b / 255 - r / 255) / (g / 255 - b / 255) + 2 := by
            unfold hue0
            rw [hM, hm, if_neg (by intro h; linarith : ¬ (g : ℚ) / 255 = r / 255), if_pos rfl,
              divSafe_of_ne _ _ hpos.ne']
          have hEm1 : (0 : ℚ) ≤ 60 * ((b / 255 - r / 255) / (g / 255 - b / 255) + 2) := by
            linarith
          have hEm2 : 60 * ((b / 255 - r / 255) / (g / 255 - b / 255) + 2) < 360 := by linarith
          rw [hhue, euclideanModulo_of_mem _ 360 (by norm_num) hEm1 hEm2]
          have hsg1 : (60 : ℚ) ≤ 60 * ((b / 255 - r / 255) / (g / 255 - b / 255) + 2) := by
            linarith
          have hsg2 : 60 * ((b / 255 - r / 255) / (g / 255 - b / 255) + 2) < 120 := by linarith
          rw [HSLToRGB_seg1 _ _ _ _ hsg1 hsg2 hS0' hS1' hL0' hL1' ha0 ha1]
          have hc := chroma_of_sat (r / 255) (g / 255) (b / 255) hR0 hR1 hG0 hG1 hB0 hB1 hlt
          rw [hM, hm] at hc
          have hoff := offset_of_sat (r / 255) (g / 255) (b / 255) hR0 hR1 hG0 hG1 hB0 hB1 hlt
          rw [hm] at hoff
          rw [hc, hoff]
          refine RGBArray_eq_of ?_ ?_ ?_ rfl hr0 hr1 hg0 hg1 hb0 hb1 ha0 ha1
          · rw [(by ring : (2 : ℚ) - 60 * ((b / 255 - r / 255) / (g / 255 - b / 255) + 2) / 60 =
              -((b / 255 - r / 255) / (g / 255 - b / 255))),
              mul_neg, mul_comm (g / 255 - b / 255), div_mul_cancel₀ _ hpos.ne']
            ring
          · ring
          · ring
    · push_neg at hC2
      have hD : r < b ∧ g < b := by
        rcases le_or_lt r g with h | h
        · exact ⟨lt_of_le_of_lt h (hC2 h), hC2 h⟩
        · have hb := hC1 h.le
          exact ⟨hb, h.trans hb⟩
      obtain ⟨hrb', hgb'⟩ := hD
      rcases lt_or_le r g with hrg | hgr
      · -- r < g < b: segment 3.
        have hM : cmax3 (r / 255) (g / 255) (b / 255) = b / 255 := by
          unfold cmax3
          rw [max_eq_right (by linarith : (g : ℚ) / 255 ≤ b / 255),
            max_eq_right (by linarith : (r : ℚ) / 255 ≤ b / 255)]
        have hm : cmin3 (r / 255) (g / 255) (b / 255) = r / 255 := by
          unfold cmin3
          rw [min_eq_left (by linarith : (g : ℚ) / 255 ≤ b / 255),
            min_eq_left (by linarith : (r : ℚ) / 255 ≤ g / 255)]
        have hlt : cmin3 (r / 255) (g / 255) (b / 255) < cmax3 (r / 255) (g / 255) (b / 255) := by
          rw [hM, hm]
          linarith
        have hpos : (0 : ℚ) < b / 255 - r / 255 := by linarith
        have hqm : (-1 : ℚ) ≤ (r / 255 - g / 255) / (b / 255 - r / 255) :=
          (le_div_iff₀ hpos).mpr (by linarith)
        have hqneg : (r / 255 - g / 255) / (b / 255 - r / 255) < 0 :=
          div_neg_of_neg_of_pos (by linarith) hpos
        have hhue : hue0 (r / 255) (g / 255) (b / 255) =
            (r / 255 - g / 255) / (b / 255 - r / 255) + 4 := by
          unfold hue0
          rw [hM, hm, if_neg (by intro h; linarith : ¬ (b : ℚ) / 255 = r / 255),
            if_neg (by intro h; linarith : ¬ (b : ℚ) / 255 = g / 255), if_pos rfl,
            divSafe_of_ne _ _ hpos.ne']
        have hEm1 : (0 : ℚ) ≤ 60 * ((r / 255 - g / 255) / (b / 255 - r / 255) + 4) := by
          linarith
        have hEm2 : 60 * ((r / 255 - g / 255) / (b / 255 - r / 255) + 4) < 360 := by linarith
        rw [hhue, euclideanModulo_of_mem _ 360 (by norm_num) hEm1 hEm2]
        have hsg1 : (180 : ℚ) ≤ 60 * ((r / 255 - g / 255) / (b / 255 - r / 255) + 4) := by
          linarith
        have hsg2 : 60 * ((r / 255 - g / 255) / (b / 255 - r / 255) + 4) < 240 := by linarith
        rw [HSLToRGB_seg3 _ _ _ _ hsg1 hsg2 hS0' hS1' hL0' hL1' ha0 ha1]
        have hc := chroma_of_sat (r / 255) (g / 255) (b / 255) hR0 hR1 hG0 hG1 hB0 hB1 hlt
        rw [hM, hm] at hc
        have hoff := offset_of_sat (r / 255) (g / 255) (b / 255) hR0 hR1 hG0 hG1 hB0 hB1 hlt
        rw [hm] at hoff
        rw [hc, hoff]
        refine RGBArray_eq_of ?_ ?_ ?_ rfl hr0 hr1 hg0 hg1 hb0 hb1 ha0 ha1
        · ring
        · rw [(by ring : (4 : ℚ) - 60 * ((r / 255 - g / 255) / (b / 255 - r / 255) + 4) / 60 =
            -((r / 255 - g / 255) / (b / 255 - r / 255))),
            mul_neg, mul_comm (b / 255 - r / 255), div_mul_cancel₀ _ hpos.ne']
          ring
        · ring
      · -- g ≤ r < b: segment 4.
        have hM : cmax3 (r / 255) (g / 255) (b / 255) = b / 255 := by
          unfold cmax3
          rw [max_eq_right (by linarith : (g : ℚ) / 255 ≤ b / 255),
            max_eq_right (by linarith : (r : ℚ) / 255 ≤ b / 255)]
        have hm : cmin3 (r / 255) (g / 255) (b / 255) = g / 255 := by
          unfold cmin3
          rw [min_eq_left (by linarith : (g : ℚ) / 255 ≤ b / 255),
            min_eq_right (by linarith : (g : ℚ) / 255 ≤ r / 255)]
        have hlt : cmin3 (r / 255) (g / 255) (b / 255) < cmax3 (r / 255) (g / 255) (b / 255) := by
          rw [hM, hm]
          linarith
        have hpos : (0 : ℚ) < b / 255 - g / 255 := by linarith
        have hq0 : (0 : ℚ) ≤ (r / 255 - g / 255) / (b / 255 - g / 255) :=
          div_nonneg (by linarith) hpos.le
        have hq1 : (r / 255 - g / 255) / (b / 255 - g / 255) < 1 :=
          (div_lt_one hpos).mpr (by linarith)
        have hhue : hue0 (r / 255) (g / 255) (b / 255) =
            (r / 255 - g / 255) / (b / 255 - g / 255) + 4 := by
          unfold hue0
          rw [hM, hm, if_neg (by intro h; linarith : ¬ (b : ℚ) / 255 = r / 255),
            if_neg (by intro h; linarith : ¬ (b : ℚ) / 255 = g / 255), if_pos rfl,
            divSafe_of_ne _ _ hpos.ne']
        have hEm1 : (0 : ℚ) ≤ 60 * ((r / 255 - g / 255) / (b / 255 - g / 255) + 4) := by
          linarith
        have hEm2 : 60 * ((r / 255 - g / 255) / (b / 255 - g / 255) + 4) < 360 := by linarith
        rw [hhue, euclideanModulo_of_mem _ 360 (by norm_num) hEm1 hEm2]
        have hsg1 : (240 : ℚ) ≤ 60 * ((r / 255 - g / 255) / (b / 255 - g / 255) + 4) := by
          linarith
        have hsg2 : 60 * ((r / 255 - g / 255) / (b / 255 - g / 255) + 4) < 300 := by linarith
        rw [HSLToRGB_seg4 _ _ _ _ hsg1 hsg2 hS0' hS1' hL0' hL1' ha0 ha1]
        have hc := chroma_of_sat (r / 255) (g / 255) (b / 255) hR0 hR1 hG0 hG1 hB0 hB1 hlt
        rw [hM, hm] at hc
        have hoff := offset_of_sat (r / 255) (g / 255) (b / 255) hR0 hR1 hG0 hG1 hB0 hB1 hlt
        rw [hm] at hoff
        rw [hc, hoff]
        refine RGBArray_eq_of ?_ ?_ ?_ rfl hr0 hr1 hg0 hg1 hb0 hb1 ha0 ha1
        · rw [(by ring : (60 : ℚ) * ((r / 255 - g / 255) / (b / 255 - g / 255) + 4) / 60 - 4 =
            (r / 255 - g / 255) / (b / 255 - g / 255)),
            mul_comm (b / 255 - g / 255), div_mul_cancel₀ _ hpos.ne']
          ring
        · ring
        · ring

/-- C7: for every RGB tuple with channels in [0,255] and alpha in [0,1],
converting with `RGBToHSL` and back with `HSLToRGB` reproduces the tuple
to within ±1 per channel after rounding to the nearest integer (the
round trip is in fact exact on the rational model, so the rounded result
is within 1/2 of each original channel; the alpha channel is returned
unchanged). -/
theorem claimC7_roundtrip_within_one (r g b a : ℚ) (hr0 : 0 ≤ r) (hr1 : r ≤ 255)
    (hg0 : 0 ≤ g) (hg1 : g ≤ 255) (hb0 : 0 ≤ b) (hb1 : b ≤ 255) (ha0 : 0 ≤ a) (ha1 : a ≤ 1) :
    |((jsRound ((HSLToRGB (caToList (RGBToHSL [some r, some g, some b, some a]))).c1) : ℚ)) -
        r| ≤ 1 ∧
    |((jsRound ((HSLToRGB (caToList (RGBToHSL [some r, some g, some b, some a]))).c2) : ℚ)) -
        g| ≤ 1 ∧
    |((jsRound ((HSLToRGB (caToList (RGBToHSL [some r, some g, some b, some a]))).c3) : ℚ)) -
        b| ≤ 1 ∧
    (HSLToRGB (caToList (RGBToHSL [some r, some g, some b, some a]))).c4 = a := by
  rw [rgb_hsl_roundtrip_exact r g b a hr0 hr1 hg0 hg1 hb0 hb1 ha0 ha1]
  exact ⟨jsRound_close r, jsRound_close g, jsRound_close b, rfl⟩

theorem claimC7_roundtrip_within_one_witness :
    |((jsRound ((HSLToRGB (caToList
        (RGBToHSL [some 10, some 200, some 55, some (1 / 2)]))).c1) : ℚ)) - 10| ≤ 1 ∧
    |((jsRound ((HSLToRGB (caToList
        (RGBToHSL [some 10, some 200, some 55, some (1 / 2)]))).c2) : ℚ)) - 200| ≤ 1 ∧
    |((jsRound ((HSLToRGB (caToList
        (RGBToHSL [some 10, some 200, some 55, some (1 / 2)]))).c3) : ℚ)) - 55| ≤ 1 ∧
    (HSLToRGB (caToList (RGBToHSL [some 10, some 200, some 55, some (1 / 2)]))).c4 = 1 / 2 :=
  claimC7_roundtrip_within_one 10 200 55 (1 / 2) (by norm_num) (by norm_num) (by norm_num)
    (by norm_num) (by norm_num) (by norm_num) (by norm_num) (by norm_num)
end ColorParser
